import Mathlib

/-!
# Verification of the Highlite plugin state machines

Shallow embedding of the two source files of the repository:

* the `NPCSpawnTimer` plugin (health polling, death/despawn detection,
  respawn-timer registry, countdown/alert engine), and
* the `TreeCutterBot` plugin's nearest-world-entity search.

JavaScript `Map`s are modelled as association lists with the same
replace-in-place / append-at-end update semantics as `Map.set`; JS
truthiness on numeric fields is modelled by comparison with `0`;
millisecond clocks are `Nat`.
-/

set_option maxHeartbeats 1000000

/-- `headMatch needle hay` is true when `needle` occurs at the start of
`hay` (character-list version of a starts-with test). -/
def headMatch : List Char → List Char → Bool
  | [], _ => true
  | _ :: _, [] => false
  | a :: as, b :: bs => a == b && headMatch as bs

/-- `containsChars needle hay` is true when `needle` occurs as a contiguous
run somewhere inside `hay`. -/
def containsChars (needle : List Char) : List Char → Bool
  | [] => headMatch needle []
  | c :: t => headMatch needle (c :: t) || containsChars needle t

/-- Model of JavaScript `hay.includes(needle)` on strings. -/
def strIncludes (hay needle : String) : Bool :=
  containsChars needle.data hay.data

/-- Model of JavaScript `s.toLowerCase()` (per-character lowering; the
names involved are ASCII). -/
def lowerStr (s : String) : String :=
  ⟨s.data.map Char.toLower⟩

/-- Model of JavaScript `s.trim()`: drop whitespace from both ends. -/
def trimStr (s : String) : String :=
  ⟨(((s.data.dropWhile Char.isWhitespace).reverse.dropWhile
      Char.isWhitespace).reverse)⟩

/-- Lookup in an association list (model of JS `Map.get`, first match). -/
def lookupA {κ α : Type} [DecidableEq κ] : List (κ × α) → κ → Option α
  | [], _ => none
  | (k', v) :: t, k => if k = k' then some v else lookupA t k

/-- Update in an association list: replace the first binding in place, or
append a new binding at the end (model of JS `Map.set`). -/
def setA {κ α : Type} [DecidableEq κ] : List (κ × α) → κ → α → List (κ × α)
  | [], k, v => [(k, v)]
  | (k', v') :: t, k, v => if k = k' then (k, v) :: t else (k', v') :: setA t k v

/-- Hitpoints block of a live NPC as read from the host
(`npc._hitpoints`): `_currentLevel` and `_level`, with `0` standing for a
JS-falsy (absent or zero) field. -/
structure Hitpoints where
  currentLevel : Nat
  level : Nat
deriving Repr, DecidableEq

/-- One NPC entry of the host's `entityManager._npcs` table, restricted to
the fields `monitorNPCHealth` / `onNPCDeath` / `shouldTrackNPC` read.
`hasDef` models the truthiness of `npc` and `npc._def`; `combatLevel`
models `npc._combat?._level || 0`; `posX`/`posY` are the rounded
coordinates `onNPCDeath` would compute; `mapLevel` is
`npc._currentMapLevel` (0 when falsy). -/
structure NPCSnapshot where
  hasDef : Bool
  name : String
  hitpoints : Option Hitpoints
  combatLevel : Nat
  posX : Int
  posY : Int
  mapLevel : Nat
deriving Repr, DecidableEq

/-- `const currentHP = hitpoints._currentLevel || hitpoints._level || 0;`
(source line 593): JS `||` falls through on `0`. -/
def currentHP (h : Hitpoints) : Nat :=
  if h.currentLevel ≠ 0 then h.currentLevel
  else if h.level ≠ 0 then h.level else 0

/-- `const maxHP = hitpoints._level || 100;` (source line 594). -/
def maxHPOf (h : Hitpoints) : Nat :=
  if h.level ≠ 0 then h.level else 100

/-- Entry of `npcHealthMap` (source `{ hp, maxHP, name }`, later enriched
by `onNPCDeath` with `position`, `level` and `npcRef`).  The cached
`npcRef` is retained only for its later uses: a truthiness test and the
read of `npc._combat?._level || 0` inside `shouldTrackNPC`, so it is
modelled as the cached combat level. -/
structure HealthRecord where
  hp : Nat
  maxHP : Nat
  name : String
  position : Option (Int × Int)
  level : Option Nat
  npcRef : Option Nat
deriving Repr, DecidableEq

/-- Entry of `trackedNPCs` (source `timerData` built in `trackNPCDeath`).
`spawned` is absent in the literal and first read as JS `undefined`
(falsy), modelled as an initial `false`. -/
structure TimerData where
  id : Nat
  name : String
  position : Int × Int
  level : Nat
  spawnTimestamp : Nat
  respawnTime : Nat
  alerted : Bool
  spawned : Bool
deriving Repr, DecidableEq

/-- Configuration surface of the plugin (constructor fields of
`NPCSpawnTimer`). -/
structure Config where
  defaultRespawnTime : Nat
  alertThreshold : Nat
  autoTrackEnabled : Bool
  minNPCLevel : Nat
  trackBosses : Bool
  bossKeywords : List String
  blacklistedNames : List String
  customRespawnTimes : List (String × Nat)
deriving Repr, DecidableEq

/-- The constructor values of `NPCSpawnTimer` (source lines 392-460).
The JS object literal repeats the key `"Elder Knight"` with the same
value `420`; an association-list lookup returns that value either way, so
the key is listed once. -/
def defaultConfig : Config where
  defaultRespawnTime := 120
  alertThreshold := 15
  autoTrackEnabled := true
  minNPCLevel := 30
  trackBosses := true
  bossKeywords :=
    ["dragon", "giant", "knight", "elder", "king", "boss", "warrior",
     "minotaur", "isradore", "damogui", "hell", "frost", "corrupt"]
  blacklistedNames :=
    ["rat", "chicken", "cow", "squirrel", "rooster", "farmer",
     "nisse", "man", "old man", "fisherman", "lumberjack",
     "sewer rat", "cave chicken", "bear cub"]
  customRespawnTimes :=
    [("King Goblin Jockey", 900), ("Damogui", 900), ("Isradore's Dragon", 900),
     ("Fire Dragon", 600), ("Water Dragon", 600), ("Plains Dragon", 600),
     ("Elder Knight", 420), ("Hell Giant", 420), ("Corrupt Minotaur", 360),
     ("Cave Bear", 360),
     ("Frost Giant", 300), ("Hell Warrior", 300), ("Minotaur", 300),
     ("Forest Giant", 240), ("Giant", 240),
     ("Knight", 240), ("Forest Warrior", 180), ("Frost Warrior", 180),
     ("Dragon Hatchling", 150),
     ("Brute", 120), ("Dark Monk", 120), ("Skeletal Mage", 120),
     ("Giant Skeleton", 180),
     ("Suit Of Armour", 60), ("Blood Mage", 60), ("Charred Skeleton", 60)]

/-- Blacklist test of `shouldTrackNPC` (source lines 638-642): some
blacklisted name, lowercased, occurs inside the lowercased NPC name. -/
def blacklistHit (cfg : Config) (nameLower : String) : Bool :=
  cfg.blacklistedNames.any (fun b => strIncludes nameLower (lowerStr b))

/-- Boss-keyword test of `shouldTrackNPC` (source lines 645-651). -/
def bossKeywordHit (cfg : Config) (nameLower : String) : Bool :=
  cfg.bossKeywords.any (fun k => strIncludes nameLower (lowerStr k))

/-- `shouldTrackNPC(npc, npcName)` (source lines 632-660).  The source
reads the combat level from the passed NPC reference as
`npc._combat?._level || 0`; the model receives that resolved level
directly. -/
def shouldTrackNPC (cfg : Config) (combatLevel : Nat) (npcName : String) : Bool :=
  if !cfg.autoTrackEnabled then false
  else
    let nameLower := lowerStr npcName
    if blacklistHit cfg nameLower then false
    else if cfg.trackBosses && bossKeywordHit cfg nameLower then true
    else decide (combatLevel ≥ cfg.minNPCLevel)

/-- Respawn duration chosen by `trackNPCDeath` (source line 686):
`this.customRespawnTimes[npcName] || this.defaultRespawnTime`, with the
JS `||` falling through on a zero table entry. -/
def respawnTimeFor (cfg : Config) (npcName : String) : Nat :=
  match lookupA cfg.customRespawnTimes npcName with
  | some v => if v = 0 then cfg.defaultRespawnTime else v
  | none => cfg.defaultRespawnTime

/-- `trackNPCDeath(npcId, npcName, position, level)` (source lines
685-703): build a timer with `spawnTimestamp = Date.now() + respawnTime *
1000`, `alerted = false` and `spawned` unset (falsy), and `Map.set` it. -/
def trackNPCDeath (cfg : Config) (now : Nat) (timers : List (Nat × TimerData))
    (npcId : Nat) (npcName : String) (position : Int × Int) (level : Nat) :
    List (Nat × TimerData) :=
  let respawnTime := respawnTimeFor cfg npcName
  setA timers npcId
    { id := npcId, name := npcName, position := position, level := level,
      spawnTimestamp := now + respawnTime * 1000, respawnTime := respawnTime,
      alerted := false, spawned := false }

/-- The timer value `trackNPCDeath` builds when `monitorNPCHealth`
despawn-confirms the record `hd` for id `npcId`: position and map level
resolved with the JS `||` fallbacks of source lines 622-623, duration per
`respawnTimeFor`. -/
def despawnTimer (cfg : Config) (now : Nat) (npcId : Nat) (hd : HealthRecord) : TimerData :=
  { id := npcId, name := hd.name,
    position := match hd.position with | some p => p | none => (0, 0),
    level := match hd.level with | some l => if l = 0 then 1 else l | none => 1,
    spawnTimestamp := now + respawnTimeFor cfg hd.name * 1000,
    respawnTime := respawnTimeFor cfg hd.name,
    alerted := false, spawned := false }

/-- In-memory state of the plugin: the `npcHealthMap` and `trackedNPCs`
maps. -/
structure PluginState where
  npcHealthMap : List (Nat × HealthRecord)
  trackedNPCs : List (Nat × TimerData)
deriving Repr, DecidableEq

/-- Ids added to `currentNPCIds` during the snapshot walk (source line
587): every id whose entry passes the `!npc || !npc._def` guard, before
the hitpoints guard. -/
def currentIds (npcs : List (Nat × NPCSnapshot)) : List Nat :=
  npcs.filterMap (fun p => if p.2.hasDef then some p.1 else none)

/-- First loop of `monitorNPCHealth` (source lines 584-609): walk the
snapshot, inserting or updating health records.  A record whose stored hp
was positive while the current hp reads zero is a death event
(`onNPCDeath`, source lines 663-682), which caches position, map level
(`npc._currentMapLevel || 1`) and the NPC reference on the record.  The
second component collects the ids for which the death event fired, in
snapshot order. -/
def phase1 : List (Nat × NPCSnapshot) → List (Nat × HealthRecord) →
    List (Nat × HealthRecord) × List Nat
  | [], hm => (hm, [])
  | (id, npc) :: rest, hm =>
    if !npc.hasDef then phase1 rest hm
    else
      match npc.hitpoints with
      | none => phase1 rest hm
      | some h =>
        let cur := currentHP h
        match lookupA hm id with
        | none =>
          phase1 rest (setA hm id
            { hp := cur, maxHP := maxHPOf h, name := npc.name,
              position := none, level := none, npcRef := none })
        | some stored =>
          if stored.hp > 0 ∧ cur = 0 then
            let stored' : HealthRecord :=
              { stored with
                  hp := cur,
                  position := some (npc.posX, npc.posY),
                  level := some (if npc.mapLevel = 0 then 1 else npc.mapLevel),
                  npcRef := some npc.combatLevel }
            let r := phase1 rest (setA hm id stored')
            (r.1, id :: r.2)
          else phase1 rest (setA hm id { stored with hp := cur })

/-- Second loop of `monitorNPCHealth` (source lines 611-628): every
record absent from the snapshot with cached hp zero is despawn-confirmed.
If the id is not already tracked, a timer is created unless a cached NPC
reference is present and fails `shouldTrackNPC`; the record is deleted in
every despawn-confirmed branch.  Other records are kept unchanged.  The
accumulator carries the kept records (in order) and the live timer map. -/
def phase2 (cfg : Config) (now : Nat) (cur : List Nat) :
    List (Nat × HealthRecord) →
    List (Nat × HealthRecord) × List (Nat × TimerData) →
    List (Nat × HealthRecord) × List (Nat × TimerData)
  | [], acc => acc
  | (id, hd) :: rest, (kept, timers) =>
    if ¬ cur.contains id ∧ hd.hp = 0 then
      if (lookupA timers id).isNone then
        if (match hd.npcRef with
            | some cl => !shouldTrackNPC cfg cl hd.name
            | none => false) then
          phase2 cfg now cur rest (kept, timers)
        else
          let position := match hd.position with | some p => p | none => (0, 0)
          let level := match hd.level with
            | some l => if l = 0 then 1 else l
            | none => 1
          phase2 cfg now cur rest
            (kept, trackNPCDeath cfg now timers id hd.name position level)
      else phase2 cfg now cur rest (kept, timers)
    else phase2 cfg now cur rest (kept ++ [(id, hd)], timers)

/-- `monitorNPCHealth` (source lines 577-629).  The snapshot argument is
`none` when `this.entityManager` or `this.entityManager._npcs` is falsy
(source line 578), in which case the method returns immediately.  The
second component is the list of death events observed this tick. -/
def monitorNPCHealth (cfg : Config) (now : Nat)
    (snapshot : Option (List (Nat × NPCSnapshot))) (s : PluginState) :
    PluginState × List Nat :=
  match snapshot with
  | none => (s, [])
  | some npcs =>
    let r1 := phase1 npcs s.npcHealthMap
    let r2 := phase2 cfg now (currentIds npcs) r1.1 ([], s.trackedNPCs)
    (⟨r2.1, r2.2⟩, r1.2)

/-- Kind of notification emitted by `updateTimers`. -/
inductive NotifKind where
  | spawnedK : NotifKind
  | alertK : NotifKind
deriving Repr, DecidableEq

/-- A notification emitted by `updateTimers`, tagged with the map key of
the timer that produced it (the `npcId` of the source loop), the timer's
name and the remaining whole seconds. -/
structure Notif where
  kind : NotifKind
  npcId : Nat
  name : String
  remaining : Nat
deriving Repr, DecidableEq

/-- Body of the first `updateTimers` loop for one timer (source lines
710-729): `timeRemaining = max(0, floor((spawnTimestamp - now)/1000))`
(truncated `Nat` subtraction realises the clamp); at zero, fire the
one-shot spawned transition; otherwise, at or under the alert threshold,
fire the one-shot alert transition. -/
def tickTimer (cfg : Config) (now : Nat) (t : TimerData) :
    TimerData × Option (NotifKind × Nat) :=
  let remaining := (t.spawnTimestamp - now) / 1000
  if remaining = 0 then
    if t.spawned = false then
      ({ t with spawned := true }, some (NotifKind.spawnedK, 0))
    else (t, none)
  else if remaining ≤ cfg.alertThreshold ∧ t.alerted = false then
    ({ t with alerted := true }, some (NotifKind.alertK, remaining))
  else (t, none)

/-- `updateTimers` (source lines 705-742): the first loop updates every
timer in place and emits notifications; the second loop (source lines
731-737) deletes every timer with `spawned` set whose spawn time lies
strictly more than 30000 ms in the past. -/
def updateTimers (cfg : Config) (now : Nat) (timers : List (Nat × TimerData)) :
    List (Nat × TimerData) × List Notif :=
  let ticked := timers.map (fun p => (p.1, tickTimer cfg now p.2))
  let notifs := ticked.filterMap
    (fun p => (p.2.2).map (fun n => ⟨n.1, p.1, p.2.1.name, n.2⟩))
  let updated := ticked.map (fun p => (p.1, p.2.1))
  (updated.filter
      (fun p => !(p.2.spawned = true ∧ p.2.spawnTimestamp + 30000 < now)),
    notifs)

/-- A sequence of `updateTimers` ticks at the given clock values,
collecting all notifications in order. -/
def runUpdates (cfg : Config) : List Nat → List (Nat × TimerData) →
    List (Nat × TimerData) × List Notif
  | [], m => (m, [])
  | now :: rest, m =>
    let r := updateTimers cfg now m
    let r' := runUpdates cfg rest r.1
    (r'.1, r.2 ++ r'.2)

/-- One `GameLoop_update` tick of the plugin (source lines 479-484):
`monitorNPCHealth` followed by `updateTimers`. -/
def gameTick (cfg : Config) (now : Nat)
    (snapshot : Option (List (Nat × NPCSnapshot))) (s : PluginState) :
    PluginState × List Nat × List Notif :=
  let r1 := monitorNPCHealth cfg now snapshot s
  let r2 := updateTimers cfg now r1.1.trackedNPCs
  (⟨r1.1.npcHealthMap, r2.1⟩, r1.2, r2.2)

/-- Number of notifications of a given kind carrying a given timer key. -/
def notifCount (k : NotifKind) (i : Nat) (ns : List Notif) : Nat :=
  (ns.filter (fun n => n.kind = k ∧ n.npcId = i)).length

/-- Keys of an association list. -/
def keysA {κ α : Type} (m : List (κ × α)) : List κ := m.map Prod.fst

/-- Well-formedness of the plugin state: each map binds every id at most
once (JS `Map` key uniqueness). -/
def WF (s : PluginState) : Prop :=
  (keysA s.npcHealthMap).Nodup ∧ (keysA s.trackedNPCs).Nodup


/-! ## TreeCutterBot: nearest-world-entity search (source
`src/renderer/client/plugins/TreeCutterBot.js`) -/

/-- A world entity as seen by `findNearestWorldEntityByName` (source lines
292-326): its `_name` (the empty string models a JS-falsy name, which the
loop skips) and its resolved world position, `none` when
`getEntityWorldPosition` returns null (source lines 341-354). -/
structure WEntity where
  name : String
  pos : Option (Int × Int)
deriving Repr, DecidableEq

/-- `distanceXZ(a, b)` (source lines 356-360) computes
`sqrt(dx*dx + dz*dz)`.  The model keeps the squared distance
`dx*dx + dz*dz`: the square root is strictly monotone on nonnegative
reals, so the two comparisons the caller makes on distances (the
`maxTargetDistance` threshold and the running minimum) are faithfully
performed on squared values against the squared threshold. -/
def distSqXZ (a b : Int × Int) : Int :=
  (a.1 - b.1) * (a.1 - b.1) + (a.2 - b.2) * (a.2 - b.2)

/-- One iteration of the entity loop of `findNearestWorldEntityByName`
(source lines 308-323): skip null entities, falsy names, include-filter
misses, exclude-filter hits, unresolvable positions and entities beyond
the distance threshold; otherwise keep the entity if it is strictly
nearer than the best so far. -/
def considerEntity (incl : String) (excls : List String) (pp : Int × Int) (maxD : Int)
    (best : Option (WEntity × Int)) (oe : Option WEntity) : Option (WEntity × Int) :=
  match oe with
  | none => best
  | some e =>
    if e.name = "" then best
    else
      let nm := lowerStr e.name
      if incl ≠ "" ∧ ¬ strIncludes nm incl then best
      else if excls.any (fun ex => ex ≠ "" && strIncludes nm ex) then best
      else
        match e.pos with
        | none => best
        | some p =>
          let d := distSqXZ pp p
          if d > maxD * maxD then best
          else
            match best with
            | none => some (e, d)
            | some (b, bd) => if d < bd then some (e, d) else some (b, bd)

/-- `findNearestWorldEntityByName(nameIncludes, nameExcludes, player)`
(source lines 292-326).  `registry` is `none` when
`WorldEntityManager.Instance.WorldEntities` is unavailable; `playerPos`
is `none` when `getPlayerWorldPosition` returns null; `maxTargetDistance`
is the `maxTargetDistance` setting.  Distances are compared squared (see
`distSqXZ`). -/
def findNearestWorldEntityByName (registry : Option (List (Option WEntity)))
    (nameIncludes : String) (nameExcludes : List String)
    (playerPos : Option (Int × Int)) (maxTargetDistance : Int) : Option WEntity :=
  match registry with
  | none => none
  | some ents =>
    let incl := trimStr (lowerStr nameIncludes)
    let excls := nameExcludes.map (fun s => lowerStr s)
    match playerPos with
    | none => none
    | some pp =>
      (ents.foldl (considerEntity incl excls pp maxTargetDistance) none).map Prod.fst

/-- The conditions an entity must meet to survive every skip-guard of the
loop body of `findNearestWorldEntityByName` (for nonempty include and
exclude strings): truthy name, lowercase name containing the include
needle, containing no exclude needle, and a resolvable position within
the distance threshold (squared comparison, see `distSqXZ`). -/
def entQualifiesB (incl : String) (excls : List String) (pp : Int × Int) (maxD : Int)
    (e : WEntity) : Bool :=
  !(e.name = "") && strIncludes (lowerStr e.name) incl &&
    excls.all (fun ex => !strIncludes (lowerStr e.name) ex) &&
    (match e.pos with
     | some p => decide (distSqXZ pp p ≤ maxD * maxD)
     | none => false)

/-! ## Association-list lemmas -/

theorem lookupA_setA {κ α : Type} [DecidableEq κ] (m : List (κ × α)) (k i : κ) (v : α) :
    lookupA (setA m k v) i = if i = k then some v else lookupA m i := by
  induction m with
  | nil => by_cases h : i = k <;> simp [setA, lookupA, h]
  | cons p t ih =>
    obtain ⟨k', v'⟩ := p
    by_cases hk : k = k'
    · subst hk
      by_cases hik : i = k <;> simp [setA, lookupA, hik]
    · by_cases hik : i = k'
      · subst hik
        have hik2 : ¬ i = k := fun h => hk h.symm
        simp [setA, hk, lookupA, hik2]
      · simp [setA, hk, lookupA, hik, ih]

theorem keysA_setA {κ α : Type} [DecidableEq κ] (m : List (κ × α)) (k : κ) (v : α) :
    keysA (setA m k v) = if k ∈ keysA m then keysA m else keysA m ++ [k] := by
  induction m with
  | nil => simp [setA, keysA]
  | cons p t ih =>
    obtain ⟨k', v'⟩ := p
    by_cases hk : k = k'
    · subst hk; simp [setA, keysA]
    · by_cases hm : k ∈ keysA t
      · simp only [setA, if_neg hk, keysA, List.map_cons] at ih ⊢
        simp only [keysA] at hm
        simp [ih, hm, hk]
      · simp only [setA, if_neg hk, keysA, List.map_cons] at ih ⊢
        simp only [keysA] at hm
        simp [ih, hm, hk]

theorem keysA_setA_nodup {κ α : Type} [DecidableEq κ] (m : List (κ × α)) (k : κ) (v : α)
    (hnd : (keysA m).Nodup) : (keysA (setA m k v)).Nodup := by
  rw [keysA_setA]
  by_cases hm : k ∈ keysA m
  · simpa [hm] using hnd
  · simp [hm, List.nodup_append, hnd]

theorem lookupA_eq_none {κ α : Type} [DecidableEq κ] (m : List (κ × α)) (i : κ) :
    lookupA m i = none ↔ i ∉ keysA m := by
  induction m with
  | nil => simp [lookupA, keysA]
  | cons p t ih =>
    obtain ⟨k', v'⟩ := p
    by_cases hik : i = k'
    · subst hik
      simp [lookupA, keysA]
    · simp only [lookupA, if_neg hik, keysA, List.map_cons, List.mem_cons]
      simp only [keysA] at ih
      simp [ih, hik]

theorem lookupA_mem {κ α : Type} [DecidableEq κ] (m : List (κ × α)) (i : κ) (v : α)
    (h : lookupA m i = some v) : (i, v) ∈ m := by
  induction m with
  | nil => simp [lookupA] at h
  | cons p t ih =>
    obtain ⟨k', v'⟩ := p
    by_cases hik : i = k'
    · subst hik
      have h2 : v' = v := by simpa [lookupA] using h
      simp [h2]
    · simp only [lookupA, if_neg hik] at h
      exact List.mem_cons_of_mem _ (ih h)

theorem mem_lookupA {κ α : Type} [DecidableEq κ] (m : List (κ × α)) (i : κ) (v : α) :
    (keysA m).Nodup → (i, v) ∈ m → lookupA m i = some v := by
  induction m with
  | nil => intro _ h; simp at h
  | cons p t ih =>
    intro hnd h
    obtain ⟨k', v'⟩ := p
    simp only [keysA, List.map_cons, List.nodup_cons] at hnd
    rcases List.mem_cons.mp h with h1 | h1
    · rw [show i = k' from congrArg Prod.fst h1, show v = v' from congrArg Prod.snd h1]
      simp [lookupA]
    · have hik : i ≠ k' := by
        intro he
        subst he
        exact hnd.1 (List.mem_map.mpr ⟨(i, v), h1, rfl⟩)
      simp only [lookupA, if_neg hik]
      exact ih hnd.2 h1

theorem lookupA_map_val {κ α β : Type} [DecidableEq κ] (m : List (κ × α)) (g : α → β) (i : κ) :
    lookupA (m.map (fun p => (p.1, g p.2))) i = (lookupA m i).map g := by
  induction m with
  | nil => simp [lookupA]
  | cons p t ih =>
    obtain ⟨k', v'⟩ := p
    by_cases hik : i = k'
    · subst hik; simp [lookupA]
    · simp [lookupA, hik, ih]

theorem keysA_map_val {κ α β : Type} (m : List (κ × α)) (g : α → β) :
    keysA (m.map (fun p => (p.1, g p.2))) = keysA m := by
  induction m with
  | nil => rfl
  | cons p t ih =>
    simp only [keysA, List.map_cons] at ih ⊢
    rw [ih]

theorem lookupA_filter_val {κ α : Type} [DecidableEq κ] (m : List (κ × α)) (q : α → Bool) (i : κ) :
    (keysA m).Nodup →
    lookupA (m.filter (fun p => q p.2)) i =
      match lookupA m i with
      | some v => if q v then some v else none
      | none => none := by
  induction m with
  | nil => intro _; simp [lookupA]
  | cons p t ih =>
    intro hnd
    obtain ⟨k', v'⟩ := p
    simp only [keysA, List.map_cons, List.nodup_cons] at hnd
    by_cases hik : i = k'
    · subst hik
      by_cases hq : q v'
      · simp [List.filter_cons, hq, lookupA]
      · have hnone : lookupA t i = none := by
          rw [lookupA_eq_none]
          exact hnd.1
        have htail : lookupA (t.filter (fun p => q p.2)) i = none := by
          rw [ih hnd.2, hnone]
        simp [List.filter_cons, hq, lookupA, htail]
    · by_cases hq : q v'
      · simp only [List.filter_cons, hq, if_pos rfl, lookupA, if_neg hik]
        exact ih hnd.2
      · simp only [List.filter_cons, hq, Bool.false_eq_true, if_neg, lookupA, if_neg hik]
        exact ih hnd.2

/-! ## Countdown/alert engine lemmas -/

theorem tickTimer_spawnTimestamp (cfg : Config) (now : Nat) (t : TimerData) :
    ((tickTimer cfg now t).1).spawnTimestamp = t.spawnTimestamp := by
  unfold tickTimer
  dsimp only
  split_ifs <;> rfl

theorem tickTimer_spawned_mono (cfg : Config) (now : Nat) (t : TimerData)
    (h : t.spawned = true) : ((tickTimer cfg now t).1).spawned = true := by
  unfold tickTimer
  dsimp only
  split_ifs <;> simp_all

theorem tickTimer_alerted_mono (cfg : Config) (now : Nat) (t : TimerData)
    (h : t.alerted = true) : ((tickTimer cfg now t).1).alerted = true := by
  unfold tickTimer
  dsimp only
  split_ifs <;> simp_all

theorem tickTimer_spawnedK (cfg : Config) (now : Nat) (t : TimerData) (r : Nat)
    (h : (tickTimer cfg now t).2 = some (NotifKind.spawnedK, r)) :
    t.spawned = false ∧ ((tickTimer cfg now t).1).spawned = true := by
  unfold tickTimer at h ⊢
  dsimp only at h ⊢
  split_ifs at h ⊢ <;> simp_all

theorem tickTimer_alertK (cfg : Config) (now : Nat) (t : TimerData) (r : Nat)
    (h : (tickTimer cfg now t).2 = some (NotifKind.alertK, r)) :
    t.alerted = false ∧ ((tickTimer cfg now t).1).alerted = true := by
  unfold tickTimer at h ⊢
  dsimp only at h ⊢
  split_ifs at h ⊢ <;> simp_all

theorem tickTimer_spawned_of_notif (cfg : Config) (now : Nat) (t : TimerData)
    (h : ((tickTimer cfg now t).1).spawned = false) : t.spawned = false := by
  by_cases hs : t.spawned = true
  · rw [tickTimer_spawned_mono cfg now t hs] at h
    exact absurd h (by simp)
  · simpa using hs

theorem updateTimers_fst (cfg : Config) (now : Nat) (m : List (Nat × TimerData)) :
    (updateTimers cfg now m).1 =
      (m.map (fun p => (p.1, (tickTimer cfg now p.2).1))).filter
        (fun p => !(p.2.spawned = true ∧ p.2.spawnTimestamp + 30000 < now)) := by
  unfold updateTimers
  dsimp only
  rw [List.map_map]
  rfl

theorem updateTimers_snd (cfg : Config) (now : Nat) (m : List (Nat × TimerData)) :
    (updateTimers cfg now m).2 =
      m.filterMap (fun p => ((tickTimer cfg now p.2).2).map
        (fun n => ⟨n.1, p.1, ((tickTimer cfg now p.2).1).name, n.2⟩)) := by
  unfold updateTimers
  dsimp only
  rw [List.filterMap_map]
  rfl

theorem keysA_map_filter_sublist {α β : Type} (g : α → β) (q : Nat × β → Bool) :
    ∀ (t : List (Nat × α)),
    List.Sublist (keysA ((t.map (fun p => (p.1, g p.2))).filter q)) (keysA t) := by
  intro t
  induction t with
  | nil => simp [keysA]
  | cons p r ih =>
    obtain ⟨k2, v2⟩ := p
    rw [List.map_cons, List.filter_cons]
    by_cases hq : q (k2, g v2)
    · rw [if_pos hq]
      exact List.Sublist.cons₂ k2 ih
    · rw [if_neg hq]
      exact ih.cons k2

theorem lookupA_map_filter {α β : Type} (g : α → β) (q : Nat × β → Bool) (i : Nat) :
    ∀ (t : List (Nat × α)), (keysA t).Nodup →
    lookupA ((t.map (fun p => (p.1, g p.2))).filter q) i =
      match lookupA t i with
      | some v => if q (i, g v) then some (g v) else none
      | none => none := by
  intro t
  induction t with
  | nil => intro _; simp [lookupA]
  | cons p r ih =>
    intro hnd
    obtain ⟨k2, v2⟩ := p
    simp only [keysA, List.map_cons, List.nodup_cons] at hnd
    rw [List.map_cons, List.filter_cons]
    by_cases hik : i = k2
    · subst hik
      have hnone : lookupA r i = none := (lookupA_eq_none r i).mpr hnd.1
      have htail : lookupA ((r.map (fun p => (p.1, g p.2))).filter q) i = none := by
        rw [lookupA_eq_none]
        intro hmem
        exact hnd.1 ((keysA_map_filter_sublist g q r).mem hmem)
      by_cases hq : q (i, g v2)
      · rw [if_pos hq]
        simp [lookupA, hq]
      · rw [if_neg hq]
        simp [lookupA, hq, htail]
    · by_cases hq : q (k2, g v2)
      · rw [if_pos hq]
        simp only [lookupA, if_neg hik]
        exact ih hnd.2
      · rw [if_neg hq]
        simp only [lookupA, if_neg hik]
        exact ih hnd.2

theorem lookupA_updateTimers (cfg : Config) (now : Nat) (m : List (Nat × TimerData)) (i : Nat)
    (hnd : (keysA m).Nodup) :
    lookupA (updateTimers cfg now m).1 i =
      match lookupA m i with
      | none => none
      | some t =>
        let t2 := (tickTimer cfg now t).1
        if t2.spawned = true ∧ t2.spawnTimestamp + 30000 < now then none else some t2 := by
  rw [updateTimers_fst]
  rw [lookupA_map_filter (fun v => (tickTimer cfg now v).1)
    (fun p => !(p.2.spawned = true ∧ p.2.spawnTimestamp + 30000 < now)) i m hnd]
  cases h : lookupA m i with
  | none => rfl
  | some t =>
    by_cases hc : ((tickTimer cfg now t).1).spawned = true ∧
        ((tickTimer cfg now t).1).spawnTimestamp + 30000 < now
    · simp [hc]
    · simp [hc]

theorem keysA_updateTimers_sublist (cfg : Config) (now : Nat) (m : List (Nat × TimerData)) :
    List.Sublist (keysA (updateTimers cfg now m).1) (keysA m) := by
  rw [updateTimers_fst]
  exact keysA_map_filter_sublist (fun v => (tickTimer cfg now v).1)
    (fun p => !(p.2.spawned = true ∧ p.2.spawnTimestamp + 30000 < now)) m

theorem keysA_updateTimers_nodup (cfg : Config) (now : Nat) (m : List (Nat × TimerData))
    (hnd : (keysA m).Nodup) : (keysA (updateTimers cfg now m).1).Nodup :=
  hnd.sublist (keysA_updateTimers_sublist cfg now m)

theorem notifCount_updateTimers (cfg : Config) (now : Nat) (k : NotifKind) (i : Nat) :
    ∀ (m : List (Nat × TimerData)), (keysA m).Nodup →
    notifCount k i (updateTimers cfg now m).2 =
      match lookupA m i with
      | none => 0
      | some t =>
        match (tickTimer cfg now t).2 with
        | some n => if n.1 = k then 1 else 0
        | none => 0 := by
  intro m
  rw [updateTimers_snd]
  unfold notifCount
  induction m with
  | nil => intro _; simp [lookupA]
  | cons p t ih =>
    intro hnd
    obtain ⟨k2, v2⟩ := p
    simp only [keysA, List.map_cons, List.nodup_cons] at hnd
    rw [List.filterMap_cons]
    cases hn : (tickTimer cfg now v2).2 with
    | none =>
      by_cases hik : i = k2
      · subst hik
        have hnone : lookupA t i = none := (lookupA_eq_none t i).mpr hnd.1
        have htail := ih hnd.2
        rw [hnone] at htail
        simp only [hn, Option.map_none', lookupA, eq_self_iff_true, ite_true]
        exact htail
      · simp only [hn, Option.map_none', lookupA, if_neg hik]
        exact ih hnd.2
    | some n =>
      by_cases hik : i = k2
      · subst hik
        have hnone : lookupA t i = none := (lookupA_eq_none t i).mpr hnd.1
        have htail := ih hnd.2
        rw [hnone] at htail
        simp only [hn, Option.map_some', lookupA, eq_self_iff_true, ite_true, List.filter_cons]
        by_cases hk : n.1 = k
        · rw [if_pos (by simp [hk])]
          simp only [List.length_cons, htail, if_pos hk]
        · rw [if_neg (by simp [hk]), if_neg hk]
          exact htail
      · simp only [hn, Option.map_some', lookupA, if_neg hik, List.filter_cons]
        rw [if_neg (by simp only [decide_eq_true_eq, not_and]; intro _ hc; exact hik hc.symm)]
        exact ih hnd.2

theorem notifCount_append (k : NotifKind) (i : Nat) (a b : List Notif) :
    notifCount k i (a ++ b) = notifCount k i a + notifCount k i b := by
  simp [notifCount, List.filter_append]

theorem runUpdates_cons (cfg : Config) (now : Nat) (rest : List Nat)
    (m : List (Nat × TimerData)) :
    runUpdates cfg (now :: rest) m =
      ((runUpdates cfg rest (updateTimers cfg now m).1).1,
        (updateTimers cfg now m).2 ++ (runUpdates cfg rest (updateTimers cfg now m).1).2) := by
  rfl

theorem runUpdates_absent (cfg : Config) (k : NotifKind) (i : Nat) :
    ∀ (times : List Nat) (m : List (Nat × TimerData)), (keysA m).Nodup →
    lookupA m i = none →
    lookupA (runUpdates cfg times m).1 i = none ∧
      notifCount k i (runUpdates cfg times m).2 = 0 := by
  intro times
  induction times with
  | nil => intro m _ h; exact ⟨h, by simp [runUpdates, notifCount]⟩
  | cons now rest ih =>
    intro m hnd h
    rw [runUpdates_cons]
    have hstep : lookupA (updateTimers cfg now m).1 i = none := by
      rw [lookupA_updateTimers cfg now m i hnd, h]
    have hcount : notifCount k i (updateTimers cfg now m).2 = 0 := by
      rw [notifCount_updateTimers cfg now k i m hnd, h]
    have hrest := ih (updateTimers cfg now m).1 (keysA_updateTimers_nodup cfg now m hnd) hstep
    refine ⟨hrest.1, ?_⟩
    rw [notifCount_append, hcount, hrest.2]

theorem runUpdates_spawned_stays (cfg : Config) (i : Nat) :
    ∀ (times : List Nat) (m : List (Nat × TimerData)) (t : TimerData), (keysA m).Nodup →
    lookupA m i = some t → t.spawned = true →
    notifCount NotifKind.spawnedK i (runUpdates cfg times m).2 = 0 ∧
      (∀ tf, lookupA (runUpdates cfg times m).1 i = some tf → tf.spawned = true) := by
  intro times
  induction times with
  | nil =>
    intro m t _ h hsp
    refine ⟨by simp [runUpdates, notifCount], ?_⟩
    intro tf htf
    simp only [runUpdates] at htf
    rw [h] at htf
    cases htf
    exact hsp
  | cons now rest ih =>
    intro m t hnd h hsp
    rw [runUpdates_cons]
    have hnd2 := keysA_updateTimers_nodup cfg now m hnd
    have hcount : notifCount NotifKind.spawnedK i (updateTimers cfg now m).2 = 0 := by
      rw [notifCount_updateTimers cfg now NotifKind.spawnedK i m hnd, h]
      dsimp only
      cases hn : (tickTimer cfg now t).2 with
      | none => simp
      | some n =>
        cases n with
        | mk nk nr =>
          cases nk with
          | spawnedK =>
            have := (tickTimer_spawnedK cfg now t nr hn).1
            rw [hsp] at this
            exact absurd this (by simp)
          | alertK => simp
    have hstep := lookupA_updateTimers cfg now m i hnd
    rw [h] at hstep
    simp only [] at hstep
    by_cases hc : ((tickTimer cfg now t).1).spawned = true ∧
        ((tickTimer cfg now t).1).spawnTimestamp + 30000 < now
    · rw [if_pos hc] at hstep
      have hrest := runUpdates_absent cfg NotifKind.spawnedK i rest
        (updateTimers cfg now m).1 hnd2 hstep
      refine ⟨?_, ?_⟩
      · rw [notifCount_append, hcount, hrest.2]
      · intro tf htf
        rw [hrest.1] at htf
        cases htf
    · rw [if_neg hc] at hstep
      have hsp2 := tickTimer_spawned_mono cfg now t hsp
      have hrest := ih (updateTimers cfg now m).1 ((tickTimer cfg now t).1) hnd2 hstep hsp2
      refine ⟨?_, hrest.2⟩
      rw [notifCount_append, hcount, hrest.1]

theorem runUpdates_alerted_stays (cfg : Config) (i : Nat) :
    ∀ (times : List Nat) (m : List (Nat × TimerData)) (t : TimerData), (keysA m).Nodup →
    lookupA m i = some t → t.alerted = true →
    notifCount NotifKind.alertK i (runUpdates cfg times m).2 = 0 ∧
      (∀ tf, lookupA (runUpdates cfg times m).1 i = some tf → tf.alerted = true) := by
  intro times
  induction times with
  | nil =>
    intro m t _ h hal
    refine ⟨by simp [runUpdates, notifCount], ?_⟩
    intro tf htf
    simp only [runUpdates] at htf
    rw [h] at htf
    cases htf
    exact hal
  | cons now rest ih =>
    intro m t hnd h hal
    rw [runUpdates_cons]
    have hnd2 := keysA_updateTimers_nodup cfg now m hnd
    have hcount : notifCount NotifKind.alertK i (updateTimers cfg now m).2 = 0 := by
      rw [notifCount_updateTimers cfg now NotifKind.alertK i m hnd, h]
      dsimp only
      cases hn : (tickTimer cfg now t).2 with
      | none => simp
      | some n =>
        cases n with
        | mk nk nr =>
          cases nk with
          | alertK =>
            have := (tickTimer_alertK cfg now t nr hn).1
            rw [hal] at this
            exact absurd this (by simp)
          | spawnedK => simp
    have hstep := lookupA_updateTimers cfg now m i hnd
    rw [h] at hstep
    simp only [] at hstep
    by_cases hc : ((tickTimer cfg now t).1).spawned = true ∧
        ((tickTimer cfg now t).1).spawnTimestamp + 30000 < now
    · rw [if_pos hc] at hstep
      have hrest := runUpdates_absent cfg NotifKind.alertK i rest
        (updateTimers cfg now m).1 hnd2 hstep
      refine ⟨?_, ?_⟩
      · rw [notifCount_append, hcount, hrest.2]
      · intro tf htf
        rw [hrest.1] at htf
        cases htf
    · rw [if_neg hc] at hstep
      have hal2 := tickTimer_alerted_mono cfg now t hal
      have hrest := ih (updateTimers cfg now m).1 ((tickTimer cfg now t).1) hnd2 hstep hal2
      refine ⟨?_, hrest.2⟩
      rw [notifCount_append, hcount, hrest.1]

theorem runUpdates_spawnedCount (cfg : Config) (i : Nat) :
    ∀ (times : List Nat) (m : List (Nat × TimerData)), (keysA m).Nodup →
    notifCount NotifKind.spawnedK i (runUpdates cfg times m).2 ≤ 1 := by
  intro times
  induction times with
  | nil => intro m _; simp [runUpdates, notifCount]
  | cons now rest ih =>
    intro m hnd
    rw [runUpdates_cons, notifCount_append]
    have hnd2 := keysA_updateTimers_nodup cfg now m hnd
    have hstep := lookupA_updateTimers cfg now m i hnd
    have hcount := notifCount_updateTimers cfg now NotifKind.spawnedK i m hnd
    cases h : lookupA m i with
    | none =>
      rw [h] at hstep hcount
      dsimp only at hstep hcount
      have hrest := runUpdates_absent cfg NotifKind.spawnedK i rest
        (updateTimers cfg now m).1 hnd2 hstep
      rw [hcount, hrest.2]
      simp
    | some t =>
      rw [h] at hstep hcount
      dsimp only at hstep hcount
      cases hn : (tickTimer cfg now t).2 with
      | none =>
        rw [hn] at hcount
        dsimp only at hcount
        rw [hcount]
        simpa using ih (updateTimers cfg now m).1 hnd2
      | some n =>
        cases n with
        | mk nk nr =>
          cases nk with
          | alertK =>
            rw [hn] at hcount
            dsimp only at hcount
            simp only [reduceCtorEq, if_false] at hcount
            rw [hcount]
            simpa using ih (updateTimers cfg now m).1 hnd2
          | spawnedK =>
            rw [hn] at hcount
            dsimp only at hcount
            simp only [eq_self_iff_true, ite_true] at hcount
            have hsp2 : ((tickTimer cfg now t).1).spawned = true :=
              (tickTimer_spawnedK cfg now t nr hn).2
            by_cases hc : ((tickTimer cfg now t).1).spawned = true ∧
                ((tickTimer cfg now t).1).spawnTimestamp + 30000 < now
            · rw [if_pos hc] at hstep
              have hrest := runUpdates_absent cfg NotifKind.spawnedK i rest
                (updateTimers cfg now m).1 hnd2 hstep
              omega
            · rw [if_neg hc] at hstep
              have hrest := runUpdates_spawned_stays cfg i rest
                (updateTimers cfg now m).1 ((tickTimer cfg now t).1) hnd2 hstep hsp2
              omega

theorem runUpdates_alertCount (cfg : Config) (i : Nat) :
    ∀ (times : List Nat) (m : List (Nat × TimerData)), (keysA m).Nodup →
    notifCount NotifKind.alertK i (runUpdates cfg times m).2 ≤ 1 := by
  intro times
  induction times with
  | nil => intro m _; simp [runUpdates, notifCount]
  | cons now rest ih =>
    intro m hnd
    rw [runUpdates_cons, notifCount_append]
    have hnd2 := keysA_updateTimers_nodup cfg now m hnd
    have hstep := lookupA_updateTimers cfg now m i hnd
    have hcount := notifCount_updateTimers cfg now NotifKind.alertK i m hnd
    cases h : lookupA m i with
    | none =>
      rw [h] at hstep hcount
      dsimp only at hstep hcount
      have hrest := runUpdates_absent cfg NotifKind.alertK i rest
        (updateTimers cfg now m).1 hnd2 hstep
      rw [hcount, hrest.2]
      simp
    | some t =>
      rw [h] at hstep hcount
      dsimp only at hstep hcount
      cases hn : (tickTimer cfg now t).2 with
      | none =>
        rw [hn] at hcount
        dsimp only at hcount
        rw [hcount]
        simpa using ih (updateTimers cfg now m).1 hnd2
      | some n =>
        cases n with
        | mk nk nr =>
          cases nk with
          | spawnedK =>
            rw [hn] at hcount
            dsimp only at hcount
            simp only [reduceCtorEq, if_false] at hcount
            rw [hcount]
            simpa using ih (updateTimers cfg now m).1 hnd2
          | alertK =>
            rw [hn] at hcount
            dsimp only at hcount
            simp only [eq_self_iff_true, ite_true] at hcount
            have hal2 : ((tickTimer cfg now t).1).alerted = true :=
              (tickTimer_alertK cfg now t nr hn).2
            by_cases hc : ((tickTimer cfg now t).1).spawned = true ∧
                ((tickTimer cfg now t).1).spawnTimestamp + 30000 < now
            · rw [if_pos hc] at hstep
              have hrest := runUpdates_absent cfg NotifKind.alertK i rest
                (updateTimers cfg now m).1 hnd2 hstep
              omega
            · rw [if_neg hc] at hstep
              have hrest := runUpdates_alerted_stays cfg i rest
                (updateTimers cfg now m).1 ((tickTimer cfg now t).1) hnd2 hstep hal2
              omega

theorem runUpdates_flags_mono (cfg : Config) (i : Nat) :
    ∀ (times : List Nat) (m : List (Nat × TimerData)) (t tf : TimerData), (keysA m).Nodup →
    lookupA m i = some t → lookupA (runUpdates cfg times m).1 i = some tf →
    (t.alerted = true → tf.alerted = true) ∧ (t.spawned = true → tf.spawned = true) := by
  intro times
  induction times with
  | nil =>
    intro m t tf _ h htf
    simp only [runUpdates] at htf
    rw [h] at htf
    cases htf
    exact ⟨fun x => x, fun x => x⟩
  | cons now rest ih =>
    intro m t tf hnd h htf
    rw [runUpdates_cons] at htf
    dsimp only at htf
    have hnd2 := keysA_updateTimers_nodup cfg now m hnd
    have hstep := lookupA_updateTimers cfg now m i hnd
    rw [h] at hstep
    dsimp only at hstep
    by_cases hc : ((tickTimer cfg now t).1).spawned = true ∧
        ((tickTimer cfg now t).1).spawnTimestamp + 30000 < now
    · rw [if_pos hc] at hstep
      have hrest := runUpdates_absent cfg NotifKind.spawnedK i rest
        (updateTimers cfg now m).1 hnd2 hstep
      rw [hrest.1] at htf
      cases htf
    · rw [if_neg hc] at hstep
      have hrest := ih (updateTimers cfg now m).1 ((tickTimer cfg now t).1) tf hnd2 hstep htf
      exact ⟨fun x => hrest.1 (tickTimer_alerted_mono cfg now t x),
        fun x => hrest.2 (tickTimer_spawned_mono cfg now t x)⟩

/-! ## Claim theorems: countdown/alert engine (C3, C4) -/

/-- C3: for every Timer, across any sequence of `updateTimers` ticks with
non-decreasing clock values, the `alerted` and `spawned` flags never fall
back from `true` to `false` (so each flips `false → true` at most once),
and the "spawned" and "spawning soon" notifications for that timer key
are each emitted at most once over the whole sequence. -/
theorem claim3_flags_and_notifications_once (cfg : Config) (times : List Nat)
    (m : List (Nat × TimerData)) (i : Nat)
    (hnd : (keysA m).Nodup)
    (_hmono : times.Chain' (fun a b => a ≤ b)) :
    (∀ t tf, lookupA m i = some t → lookupA (runUpdates cfg times m).1 i = some tf →
      (t.alerted = true → tf.alerted = true) ∧ (t.spawned = true → tf.spawned = true)) ∧
    notifCount NotifKind.spawnedK i (runUpdates cfg times m).2 ≤ 1 ∧
    notifCount NotifKind.alertK i (runUpdates cfg times m).2 ≤ 1 :=
  ⟨fun t tf ht htf => runUpdates_flags_mono cfg i times m t tf hnd ht htf,
   runUpdates_spawnedCount cfg i times m hnd,
   runUpdates_alertCount cfg i times m hnd⟩

/-- Witness for C3: a fresh timer ticked through its alert window, its
spawn instant, a repeat of the same instant, and a later instant emits
each notification at most once. -/
theorem claim3_witness :
    notifCount NotifKind.spawnedK 1
      (runUpdates defaultConfig [5000, 6000, 20000, 20000, 25000]
        [(1, ⟨1, "Giant", (0, 0), 1, 20000, 20, false, false⟩)]).2 ≤ 1 ∧
    notifCount NotifKind.alertK 1
      (runUpdates defaultConfig [5000, 6000, 20000, 20000, 25000]
        [(1, ⟨1, "Giant", (0, 0), 1, 20000, 20, false, false⟩)]).2 ≤ 1 :=
  ⟨(claim3_flags_and_notifications_once defaultConfig [5000, 6000, 20000, 20000, 25000]
      [(1, ⟨1, "Giant", (0, 0), 1, 20000, 20, false, false⟩)] 1
      (by decide) (by simp [List.chain'_cons])).2.1,
   (claim3_flags_and_notifications_once defaultConfig [5000, 6000, 20000, 20000, 25000]
      [(1, ⟨1, "Giant", (0, 0), 1, 20000, 20, false, false⟩)] 1
      (by decide) (by simp [List.chain'_cons])).2.2⟩

/-- C4 (counterexample): the claim says a spawned Timer is removed once
`now − spawnTimestamp ≥ 30000` ms.  At exactly 30000 ms elapsed
(`spawnTimestamp = 0`, `now = 30000`, elapsed `= 30000 ≥ 30000`) the
sweep of `updateTimers` keeps the timer, because the source tests the
strict inequality `(now - timer.spawnTimestamp) > 30000`. -/
theorem claim4_counterexample :
    (lookupA (updateTimers defaultConfig 30000
        [(1, ⟨1, "Giant", (0, 0), 1, 0, 240, false, true⟩)]).1 1).isSome = true ∧
    30000 - (0 : Nat) ≥ 30000 := by
  decide

/-- C4 (amended): a Timer whose `spawned` flag is true entering the tick
is removed by `updateTimers` at time `now` exactly when strictly more
than 30000 ms have elapsed since its `spawnTimestamp`
(`now > spawnTimestamp + 30000`), and never before; a Timer whose
`spawned` flag is still false after the flag-update pass is never removed
by the sweep. -/
theorem claim4_sweep_strictly_after_30s (cfg : Config) (now : Nat)
    (m : List (Nat × TimerData)) (i : Nat) (t : TimerData)
    (hnd : (keysA m).Nodup) (h : lookupA m i = some t) :
    (t.spawned = true →
      (lookupA (updateTimers cfg now m).1 i = none ↔ t.spawnTimestamp + 30000 < now)) ∧
    (((tickTimer cfg now t).1).spawned = false →
      lookupA (updateTimers cfg now m).1 i = some ((tickTimer cfg now t).1)) := by
  have hstep := lookupA_updateTimers cfg now m i hnd
  rw [h] at hstep
  dsimp only at hstep
  constructor
  · intro hsp
    have hsp2 := tickTimer_spawned_mono cfg now t hsp
    have hts := tickTimer_spawnTimestamp cfg now t
    constructor
    · intro hnone
      by_cases hc : ((tickTimer cfg now t).1).spawned = true ∧
          ((tickTimer cfg now t).1).spawnTimestamp + 30000 < now
      · rw [hts] at hc
        exact hc.2
      · rw [if_neg hc] at hstep
        rw [hstep] at hnone
        cases hnone
    · intro hlt
      rw [if_pos ⟨hsp2, by rw [hts]; exact hlt⟩] at hstep
      exact hstep
  · intro hsp2
    rw [if_neg (by intro hc; rw [hsp2] at hc; exact absurd hc.1 (by simp))] at hstep
    exact hstep

/-- Witness for C4 (amended): a spawned timer with `spawnTimestamp = 0`
is still present at `now = 30000` and gone at `now = 30001`. -/
theorem claim4_witness :
    lookupA (updateTimers defaultConfig 30001
      [(1, ⟨1, "Giant", (0, 0), 1, 0, 240, false, true⟩)]).1 1 = none ∧
    lookupA (updateTimers defaultConfig 30000
      [(1, ⟨1, "Giant", (0, 0), 1, 0, 240, false, true⟩)]).1 1 ≠ none :=
  ⟨((claim4_sweep_strictly_after_30s defaultConfig 30001
        [(1, ⟨1, "Giant", (0, 0), 1, 0, 240, false, true⟩)] 1
        ⟨1, "Giant", (0, 0), 1, 0, 240, false, true⟩ (by decide) (by decide)).1
      (by decide)).mpr (by decide),
   fun hc => by
    have := ((claim4_sweep_strictly_after_30s defaultConfig 30000
        [(1, ⟨1, "Giant", (0, 0), 1, 0, 240, false, true⟩)] 1
        ⟨1, "Giant", (0, 0), 1, 0, 240, false, true⟩ (by decide) (by decide)).1
      (by decide)).mp hc
    exact absurd this (by decide)⟩

/-! ## Claim theorems: timer creation and eligibility filter (C5, C6, C10) -/

theorem lookupA_of_forall {α : Type} (P : α → Prop) :
    ∀ (l : List (String × α)), (∀ p ∈ l, P p.2) →
    ∀ name v, lookupA l name = some v → P v := by
  intro l
  induction l with
  | nil => intro _ name v h; simp [lookupA] at h
  | cons p t ih =>
    intro hall name v h
    obtain ⟨k2, v2⟩ := p
    by_cases hk : name = k2
    · subst hk
      have h2 : v2 = v := by simpa [lookupA] using h
      exact h2 ▸ hall (name, v2) (by simp)
    · simp only [lookupA, if_neg hk] at h
      exact ih (fun q hq => hall q (List.mem_cons_of_mem _ hq)) name v h

/-- Every entry of the static respawn-duration table is positive (so the
JS `||` fallback never fires on a present key). -/
theorem customRespawnTimes_pos :
    ∀ p ∈ defaultConfig.customRespawnTimes, p.2 ≠ 0 := by
  decide

/-- C5: `trackNPCDeath` sets `respawnTime` to the exact-match value of
the static per-name duration table when the name is present, and to the
configured default of 120 seconds otherwise, and sets `spawnTimestamp` to
`now` plus that duration (converted to the clock's milliseconds). -/
theorem claim5_respawn_duration (now : Nat) (timers : List (Nat × TimerData))
    (npcId : Nat) (npcName : String) (position : Int × Int) (level : Nat) :
    defaultConfig.defaultRespawnTime = 120 ∧
    ∃ t, lookupA (trackNPCDeath defaultConfig now timers npcId npcName position level)
        npcId = some t ∧
      t.respawnTime = (lookupA defaultConfig.customRespawnTimes npcName).getD 120 ∧
      t.spawnTimestamp = now + t.respawnTime * 1000 := by
  refine ⟨rfl, ?_⟩
  unfold trackNPCDeath
  dsimp only
  rw [lookupA_setA]
  rw [if_pos rfl]
  refine ⟨_, rfl, ?_, rfl⟩
  unfold respawnTimeFor
  cases h : lookupA defaultConfig.customRespawnTimes npcName with
  | none => rfl
  | some v =>
    have hv := lookupA_of_forall (fun x => x ≠ 0)
      defaultConfig.customRespawnTimes customRespawnTimes_pos npcName v h
    simp [hv]

/-- C6: with auto-tracking enabled, `shouldTrackNPC` applies its rules in
strict precedence: a blacklist hit rejects regardless of boss keywords or
combat level; otherwise, with boss tracking enabled, a boss-keyword hit
accepts without consulting the level; otherwise acceptance holds exactly
when the combat level is at least the configured minimum. -/
theorem claim6_eligibility_precedence (cfg : Config) (npcName : String) (combatLevel : Nat)
    (hauto : cfg.autoTrackEnabled = true) :
    (blacklistHit cfg (lowerStr npcName) = true →
      shouldTrackNPC cfg combatLevel npcName = false) ∧
    (blacklistHit cfg (lowerStr npcName) = false → cfg.trackBosses = true →
      bossKeywordHit cfg (lowerStr npcName) = true →
      shouldTrackNPC cfg combatLevel npcName = true) ∧
    (blacklistHit cfg (lowerStr npcName) = false →
      (cfg.trackBosses && bossKeywordHit cfg (lowerStr npcName)) = false →
      (shouldTrackNPC cfg combatLevel npcName = true ↔
        cfg.minNPCLevel ≤ combatLevel)) := by
  refine ⟨?_, ?_, ?_⟩
  · intro hbl
    simp [shouldTrackNPC, hauto, hbl]
  · intro hbl htb hkw
    simp [shouldTrackNPC, hauto, hbl, htb, hkw]
  · intro hbl hkw
    simp [shouldTrackNPC, hauto, hbl, hkw]

/-- Witness for C6: "Corrupt Cow" carries both a blacklist hit ("cow")
and a boss keyword ("corrupt") and a qualifying level, yet is rejected;
"Fire Dragon" is accepted at level 0 through its boss keyword; "Newt" at
level 30 is accepted through the level rule and rejected at level 29. -/
theorem claim6_witness :
    shouldTrackNPC defaultConfig 100 "Corrupt Cow" = false ∧
    shouldTrackNPC defaultConfig 0 "Fire Dragon" = true ∧
    shouldTrackNPC defaultConfig 30 "Newt" = true ∧
    shouldTrackNPC defaultConfig 29 "Newt" = false :=
  ⟨(claim6_eligibility_precedence defaultConfig "Corrupt Cow" 100 rfl).1 (by decide),
   (claim6_eligibility_precedence defaultConfig "Fire Dragon" 0 rfl).2.1
     (by decide) rfl (by decide),
   ((claim6_eligibility_precedence defaultConfig "Newt" 30 rfl).2.2
     (by decide) (by decide)).mpr (by decide),
   by
    have h := ((claim6_eligibility_precedence defaultConfig "Newt" 29 rfl).2.2
      (by decide) (by decide))
    by_cases hb : shouldTrackNPC defaultConfig 29 "Newt" = true
    · exact absurd (h.mp hb) (by decide)
    · simpa using hb⟩

/-- C10: with the auto-track master switch off, `shouldTrackNPC` rejects
every entity, whatever its name or combat level. -/
theorem claim10_master_switch_off (cfg : Config) (combatLevel : Nat) (npcName : String)
    (h : cfg.autoTrackEnabled = false) :
    shouldTrackNPC cfg combatLevel npcName = false := by
  simp [shouldTrackNPC, h]

/-- Witness for C10: with auto-tracking disabled, even a high-level boss
name is rejected. -/
theorem claim10_witness :
    shouldTrackNPC { defaultConfig with autoTrackEnabled := false } 999 "Fire Dragon"
      = false :=
  claim10_master_switch_off { defaultConfig with autoTrackEnabled := false } 999
    "Fire Dragon" rfl

/-! ## Death-detector (monitorNPCHealth) lemmas -/

theorem lookupA_append {κ α : Type} [DecidableEq κ] (i : κ) :
    ∀ (a b : List (κ × α)), lookupA (a ++ b) i =
      match lookupA a i with
      | some v => some v
      | none => lookupA b i := by
  intro a b
  induction a with
  | nil => simp [lookupA]
  | cons p t ih =>
    obtain ⟨k2, v2⟩ := p
    by_cases hik : i = k2
    · subst hik; simp [lookupA]
    · simp only [List.cons_append, lookupA, if_neg hik]
      exact ih

theorem phase2_timers_not_mem (cfg : Config) (now : Nat) (cur : List Nat) (i : Nat) :
    ∀ (hm : List (Nat × HealthRecord)) (kept : List (Nat × HealthRecord))
      (timers : List (Nat × TimerData)), i ∉ keysA hm →
    lookupA (phase2 cfg now cur hm (kept, timers)).2 i = lookupA timers i := by
  intro hm
  induction hm with
  | nil => intro kept timers _; rfl
  | cons p rest ih =>
    intro kept timers hmem
    obtain ⟨j, hd⟩ := p
    simp only [keysA, List.map_cons, List.mem_cons, not_or] at hmem
    have hij : i ≠ j := hmem.1
    have hrest : i ∉ keysA rest := by simpa [keysA] using hmem.2
    rw [phase2]
    by_cases h1 : ¬ cur.contains j ∧ hd.hp = 0
    · rw [if_pos h1]
      by_cases h2 : (lookupA timers j).isNone
      · rw [if_pos h2]
        by_cases h3 : (match hd.npcRef with
            | some cl => !shouldTrackNPC cfg cl hd.name
            | none => false) = true
        · rw [if_pos h3]
          exact ih kept timers hrest
        · rw [if_neg h3]
          rw [ih kept _ hrest]
          simp [trackNPCDeath, lookupA_setA, hij]
      · rw [if_neg h2]
        exact ih kept timers hrest
    · rw [if_neg h1]
      exact ih (kept ++ [(j, hd)]) timers hrest

theorem phase2_kept_not_mem (cfg : Config) (now : Nat) (cur : List Nat) (i : Nat) :
    ∀ (hm : List (Nat × HealthRecord)) (kept : List (Nat × HealthRecord))
      (timers : List (Nat × TimerData)), i ∉ keysA hm →
    lookupA (phase2 cfg now cur hm (kept, timers)).1 i = lookupA kept i := by
  intro hm
  induction hm with
  | nil => intro kept timers _; rfl
  | cons p rest ih =>
    intro kept timers hmem
    obtain ⟨j, hd⟩ := p
    simp only [keysA, List.map_cons, List.mem_cons, not_or] at hmem
    have hij : i ≠ j := hmem.1
    have hrest : i ∉ keysA rest := by simpa [keysA] using hmem.2
    rw [phase2]
    by_cases h1 : ¬ cur.contains j ∧ hd.hp = 0
    · rw [if_pos h1]
      by_cases h2 : (lookupA timers j).isNone
      · rw [if_pos h2]
        by_cases h3 : (match hd.npcRef with
            | some cl => !shouldTrackNPC cfg cl hd.name
            | none => false) = true
        · rw [if_pos h3]
          exact ih kept timers hrest
        · rw [if_neg h3]
          exact ih kept _ hrest
      · rw [if_neg h2]
        exact ih kept timers hrest
    · rw [if_neg h1]
      rw [ih (kept ++ [(j, hd)]) timers hrest]
      rw [lookupA_append]
      cases h : lookupA kept i with
      | none => simp [lookupA, hij]
      | some v => rfl

theorem phase2_keep (cfg : Config) (now : Nat) (cur : List Nat) (i : Nat) (hd : HealthRecord) :
    ∀ (hm : List (Nat × HealthRecord)) (kept : List (Nat × HealthRecord))
      (timers : List (Nat × TimerData)),
    (keysA hm).Nodup → lookupA hm i = some hd →
    ¬ (cur.contains i = false ∧ hd.hp = 0) →
    lookupA (phase2 cfg now cur hm (kept, timers)).1 i =
      (match lookupA kept i with
       | some v => some v
       | none => some hd) ∧
    lookupA (phase2 cfg now cur hm (kept, timers)).2 i = lookupA timers i := by
  intro hm
  induction hm with
  | nil => intro kept timers _ h; simp [lookupA] at h
  | cons p rest ih =>
    intro kept timers hnd h hcond
    obtain ⟨j, hd0⟩ := p
    simp only [keysA, List.map_cons, List.nodup_cons] at hnd
    by_cases hij : i = j
    · subst hij
      have hd0eq : hd0 = hd := by simpa [lookupA] using h
      subst hd0eq
      have hrest : i ∉ keysA rest := by simpa [keysA] using hnd.1
      rw [phase2]
      have h1 : ¬ (¬ cur.contains i ∧ hd0.hp = 0) := by
        intro hc
        exact hcond ⟨by simpa using hc.1, hc.2⟩
      rw [if_neg h1]
      constructor
      · rw [phase2_kept_not_mem cfg now cur i rest _ timers hrest]
        rw [lookupA_append]
        cases hk : lookupA kept i with
        | none => simp [lookupA]
        | some v => rfl
      · exact phase2_timers_not_mem cfg now cur i rest _ timers hrest
    · have htail : lookupA rest i = some hd := by simpa [lookupA, hij] using h
      rw [phase2]
      by_cases h1 : ¬ cur.contains j ∧ hd0.hp = 0
      · rw [if_pos h1]
        by_cases h2 : (lookupA timers j).isNone
        · rw [if_pos h2]
          by_cases h3 : (match hd0.npcRef with
              | some cl => !shouldTrackNPC cfg cl hd0.name
              | none => false) = true
          · rw [if_pos h3]
            exact ih kept timers hnd.2 htail hcond
          · rw [if_neg h3]
            have hres := ih kept (trackNPCDeath cfg now timers j hd0.name
              (match hd0.position with | some p => p | none => (0, 0))
              (match hd0.level with | some l => if l = 0 then 1 else l | none => 1))
              hnd.2 htail hcond
            refine ⟨hres.1, ?_⟩
            rw [hres.2]
            simp [trackNPCDeath, lookupA_setA, hij]
        · rw [if_neg h2]
          exact ih kept timers hnd.2 htail hcond
      · rw [if_neg h1]
        have hres := ih (kept ++ [(j, hd0)]) timers hnd.2 htail hcond
        refine ⟨?_, hres.2⟩
        rw [hres.1, lookupA_append]
        cases hk : lookupA kept i with
        | none => simp [lookupA, hij]
        | some v => rfl

theorem phase2_remove (cfg : Config) (now : Nat) (cur : List Nat) (i : Nat) (hd : HealthRecord) :
    ∀ (hm : List (Nat × HealthRecord)) (kept : List (Nat × HealthRecord))
      (timers : List (Nat × TimerData)),
    (keysA hm).Nodup → lookupA hm i = some hd →
    cur.contains i = false → hd.hp = 0 →
    lookupA (phase2 cfg now cur hm (kept, timers)).1 i = lookupA kept i ∧
    lookupA (phase2 cfg now cur hm (kept, timers)).2 i =
      (match lookupA timers i with
       | some t0 => some t0
       | none =>
         match hd.npcRef with
         | some cl =>
           if shouldTrackNPC cfg cl hd.name then some (despawnTimer cfg now i hd) else none
         | none => some (despawnTimer cfg now i hd)) := by
  intro hm
  induction hm with
  | nil => intro kept timers _ h; simp [lookupA] at h
  | cons p rest ih =>
    intro kept timers hnd h habs hzero
    obtain ⟨j, hd0⟩ := p
    simp only [keysA, List.map_cons, List.nodup_cons] at hnd
    by_cases hij : i = j
    · subst hij
      have hd0eq : hd0 = hd := by simpa [lookupA] using h
      subst hd0eq
      have hrest : i ∉ keysA rest := by simpa [keysA] using hnd.1
      rw [phase2]
      rw [if_pos ⟨by simp only [habs]; exact Bool.false_ne_true, hzero⟩]
      cases ht : lookupA timers i with
      | some t0 =>
        rw [if_neg (by simp [ht])]
        refine ⟨phase2_kept_not_mem cfg now cur i rest kept timers hrest, ?_⟩
        rw [phase2_timers_not_mem cfg now cur i rest kept timers hrest, ht]
      | none =>
        rw [if_pos (by simp [ht])]
        cases hr : hd0.npcRef with
        | some cl =>
          by_cases hs : shouldTrackNPC cfg cl hd0.name
          · rw [if_neg (by simp [hr, hs])]
            refine ⟨phase2_kept_not_mem cfg now cur i rest kept _ hrest, ?_⟩
            rw [phase2_timers_not_mem cfg now cur i rest kept _ hrest]
            simp [trackNPCDeath, lookupA_setA, despawnTimer, hs]
          · rw [if_pos (by simp [hr, hs])]
            refine ⟨phase2_kept_not_mem cfg now cur i rest kept timers hrest, ?_⟩
            rw [phase2_timers_not_mem cfg now cur i rest kept timers hrest, ht]
            simp [hs]
        | none =>
          rw [if_neg (by simp [hr])]
          refine ⟨phase2_kept_not_mem cfg now cur i rest kept _ hrest, ?_⟩
          rw [phase2_timers_not_mem cfg now cur i rest kept _ hrest]
          simp [trackNPCDeath, lookupA_setA, despawnTimer]
    · have htail : lookupA rest i = some hd := by simpa [lookupA, hij] using h
      rw [phase2]
      by_cases h1 : ¬ cur.contains j ∧ hd0.hp = 0
      · rw [if_pos h1]
        by_cases h2 : (lookupA timers j).isNone
        · rw [if_pos h2]
          by_cases h3 : (match hd0.npcRef with
              | some cl => !shouldTrackNPC cfg cl hd0.name
              | none => false) = true
          · rw [if_pos h3]
            exact ih kept timers hnd.2 htail habs hzero
          · rw [if_neg h3]
            have hres := ih kept (trackNPCDeath cfg now timers j hd0.name
              (match hd0.position with | some p => p | none => (0, 0))
              (match hd0.level with | some l => if l = 0 then 1 else l | none => 1))
              hnd.2 htail habs hzero
            refine ⟨hres.1, ?_⟩
            rw [hres.2]
            have : lookupA (trackNPCDeath cfg now timers j hd0.name
                (match hd0.position with | some p => p | none => (0, 0))
                (match hd0.level with | some l => if l = 0 then 1 else l | none => 1)) i =
                lookupA timers i := by
              simp [trackNPCDeath, lookupA_setA, hij]
            rw [this]
        · rw [if_neg h2]
          exact ih kept timers hnd.2 htail habs hzero
      · rw [if_neg h1]
        have hres := ih (kept ++ [(j, hd0)]) timers hnd.2 htail habs hzero
        refine ⟨?_, hres.2⟩
        rw [hres.1, lookupA_append]
        cases hk : lookupA kept i with
        | none => simp [lookupA, hij]
        | some v => rfl

theorem phase2_new_timer (cfg : Config) (now : Nat) (cur : List Nat) (i : Nat) :
    ∀ (hm : List (Nat × HealthRecord)) (kept : List (Nat × HealthRecord))
      (timers : List (Nat × TimerData)),
    lookupA (phase2 cfg now cur hm (kept, timers)).2 i ≠ lookupA timers i →
    cur.contains i = false ∧ ∃ hd, (i, hd) ∈ hm ∧ hd.hp = 0 := by
  intro hm
  induction hm with
  | nil => intro kept timers h; exact absurd rfl h
  | cons p rest ih =>
    intro kept timers h
    obtain ⟨j, hd0⟩ := p
    rw [phase2] at h
    by_cases h1 : ¬ cur.contains j ∧ hd0.hp = 0
    · rw [if_pos h1] at h
      by_cases h2 : (lookupA timers j).isNone
      · rw [if_pos h2] at h
        by_cases h3 : (match hd0.npcRef with
            | some cl => !shouldTrackNPC cfg cl hd0.name
            | none => false) = true
        · rw [if_pos h3] at h
          obtain ⟨hc, hd, hmem, hz⟩ := ih kept timers h
          exact ⟨hc, hd, List.mem_cons_of_mem _ hmem, hz⟩
        · rw [if_neg h3] at h
          by_cases hij : i = j
          · subst hij
            refine ⟨by simpa using h1.1, hd0, by simp, h1.2⟩
          · have hsame : lookupA (trackNPCDeath cfg now timers j hd0.name
                (match hd0.position with | some p => p | none => (0, 0))
                (match hd0.level with | some l => if l = 0 then 1 else l | none => 1)) i =
                lookupA timers i := by
              simp [trackNPCDeath, lookupA_setA, hij]
            have h' := ih kept _ (fun hc => h (hc.trans hsame))
            obtain ⟨hc, hd, hmem, hz⟩ := h'
            exact ⟨hc, hd, List.mem_cons_of_mem _ hmem, hz⟩
      · rw [if_neg h2] at h
        obtain ⟨hc, hd, hmem, hz⟩ := ih kept timers h
        exact ⟨hc, hd, List.mem_cons_of_mem _ hmem, hz⟩
    · rw [if_neg h1] at h
      obtain ⟨hc, hd, hmem, hz⟩ := ih (kept ++ [(j, hd0)]) timers h
      exact ⟨hc, hd, List.mem_cons_of_mem _ hmem, hz⟩

theorem phase2_kept_sublist (cfg : Config) (now : Nat) (cur : List Nat) :
    ∀ (hm : List (Nat × HealthRecord)) (kept : List (Nat × HealthRecord))
      (timers : List (Nat × TimerData)),
    ∃ l, (phase2 cfg now cur hm (kept, timers)).1 = kept ++ l ∧ List.Sublist l hm := by
  intro hm
  induction hm with
  | nil => intro kept timers; exact ⟨[], by simp [phase2], List.Sublist.refl []⟩
  | cons p rest ih =>
    intro kept timers
    obtain ⟨j, hd0⟩ := p
    rw [phase2]
    by_cases h1 : ¬ cur.contains j ∧ hd0.hp = 0
    · rw [if_pos h1]
      by_cases h2 : (lookupA timers j).isNone
      · rw [if_pos h2]
        by_cases h3 : (match hd0.npcRef with
            | some cl => !shouldTrackNPC cfg cl hd0.name
            | none => false) = true
        · rw [if_pos h3]
          obtain ⟨l, heq, hsub⟩ := ih kept timers
          exact ⟨l, heq, hsub.cons _⟩
        · rw [if_neg h3]
          obtain ⟨l, heq, hsub⟩ := ih kept _
          exact ⟨l, heq, hsub.cons _⟩
      · rw [if_neg h2]
        obtain ⟨l, heq, hsub⟩ := ih kept timers
        exact ⟨l, heq, hsub.cons _⟩
    · rw [if_neg h1]
      obtain ⟨l, heq, hsub⟩ := ih (kept ++ [(j, hd0)]) timers
      exact ⟨(j, hd0) :: l, by rw [heq, List.append_assoc]; rfl,
        List.Sublist.cons₂ _ hsub⟩

theorem phase2_timers_nodup (cfg : Config) (now : Nat) (cur : List Nat) :
    ∀ (hm : List (Nat × HealthRecord)) (kept : List (Nat × HealthRecord))
      (timers : List (Nat × TimerData)),
    (keysA timers).Nodup → (keysA (phase2 cfg now cur hm (kept, timers)).2).Nodup := by
  intro hm
  induction hm with
  | nil => intro kept timers h; exact h
  | cons p rest ih =>
    intro kept timers hnd
    obtain ⟨j, hd0⟩ := p
    rw [phase2]
    by_cases h1 : ¬ cur.contains j ∧ hd0.hp = 0
    · rw [if_pos h1]
      by_cases h2 : (lookupA timers j).isNone
      · rw [if_pos h2]
        by_cases h3 : (match hd0.npcRef with
            | some cl => !shouldTrackNPC cfg cl hd0.name
            | none => false) = true
        · rw [if_pos h3]
          exact ih kept timers hnd
        · rw [if_neg h3]
          exact ih kept _ (keysA_setA_nodup timers j _ hnd)
      · rw [if_neg h2]
        exact ih kept timers hnd
    · rw [if_neg h1]
      exact ih (kept ++ [(j, hd0)]) timers hnd

theorem phase1_not_mem (i : Nat) :
    ∀ (npcs : List (Nat × NPCSnapshot)) (hm : List (Nat × HealthRecord)),
    (∀ p ∈ npcs, p.1 ≠ i) →
    lookupA (phase1 npcs hm).1 i = lookupA hm i := by
  intro npcs
  induction npcs with
  | nil => intro hm _; rfl
  | cons p rest ih =>
    intro hm hne
    obtain ⟨j, npc⟩ := p
    have hji : j ≠ i := hne (j, npc) (by simp)
    have hij : i ≠ j := fun h => hji h.symm
    have hrest : ∀ p ∈ rest, p.1 ≠ i := fun q hq => hne q (List.mem_cons_of_mem _ hq)
    rw [phase1]
    by_cases h1 : !npc.hasDef
    · rw [if_pos h1]
      exact ih hm hrest
    · rw [if_neg h1]
      cases hhp : npc.hitpoints with
      | none => exact ih hm hrest
      | some h =>
        dsimp only
        cases hst : lookupA hm j with
        | none =>
          dsimp only
          rw [ih _ hrest, lookupA_setA, if_neg hij]
        | some stored =>
          dsimp only
          by_cases h2 : stored.hp > 0 ∧ currentHP h = 0
          · rw [if_pos h2]
            dsimp only
            rw [ih _ hrest, lookupA_setA, if_neg hij]
          · rw [if_neg h2]
            rw [ih _ hrest, lookupA_setA, if_neg hij]

theorem phase1_nodup :
    ∀ (npcs : List (Nat × NPCSnapshot)) (hm : List (Nat × HealthRecord)),
    (keysA hm).Nodup → (keysA (phase1 npcs hm).1).Nodup := by
  intro npcs
  induction npcs with
  | nil => intro hm h; exact h
  | cons p rest ih =>
    intro hm hnd
    obtain ⟨j, npc⟩ := p
    rw [phase1]
    by_cases h1 : !npc.hasDef
    · rw [if_pos h1]
      exact ih hm hnd
    · rw [if_neg h1]
      cases hhp : npc.hitpoints with
      | none => exact ih hm hnd
      | some h =>
        dsimp only
        cases hst : lookupA hm j with
        | none =>
          dsimp only
          exact ih _ (keysA_setA_nodup hm j _ hnd)
        | some stored =>
          dsimp only
          by_cases h2 : stored.hp > 0 ∧ currentHP h = 0
          · rw [if_pos h2]
            dsimp only
            exact ih _ (keysA_setA_nodup hm j _ hnd)
          · rw [if_neg h2]
            exact ih _ (keysA_setA_nodup hm j _ hnd)

/-! ## Claim theorems: death detection and despawn confirmation
(C1, C2, C7, C8) -/

/-- C7 (counterexample): a tick with the host registry unavailable is not
equivalent to a tick over an empty snapshot.  With a pending zero-health
record, the empty snapshot despawn-confirms it (deleting the record and
creating a Timer), while the unavailable registry leaves the state
untouched. -/
theorem claim7_counterexample :
    monitorNPCHealth defaultConfig 1000 none
        ⟨[(1, ⟨0, 100, "Giant", none, none, none⟩)], []⟩ ≠
      monitorNPCHealth defaultConfig 1000 (some [])
        ⟨[(1, ⟨0, 100, "Giant", none, none, none⟩)], []⟩ := by
  decide

/-- C7 (amended): when the host registry is missing or uninitialized, the
`monitorNPCHealth` tick is a no-op: it raises no error and returns the
state exactly unchanged, reporting no death event. -/
theorem claim7_unavailable_registry_noop (cfg : Config) (now : Nat) (s : PluginState) :
    monitorNPCHealth cfg now none s = (s, []) := rfl

/-- C1 (counterexample): an entity first observed with health already
zero, which then disappears, produces a Timer even though no tick ever
observed a transition of its health to zero (the death-event list of
every tick of the run is empty). -/
theorem claim1_counterexample :
    (monitorNPCHealth defaultConfig 1000
      (some [(1, ⟨true, "Fire Dragon", some ⟨0, 0⟩, 100, 3, 4, 1⟩)]) ⟨[], []⟩).2 = [] ∧
    (monitorNPCHealth defaultConfig 2000 (some [])
      (monitorNPCHealth defaultConfig 1000
        (some [(1, ⟨true, "Fire Dragon", some ⟨0, 0⟩, 100, 3, 4, 1⟩)]) ⟨[], []⟩).1).2 = [] ∧
    (lookupA (monitorNPCHealth defaultConfig 2000 (some [])
      (monitorNPCHealth defaultConfig 1000
        (some [(1, ⟨true, "Fire Dragon", some ⟨0, 0⟩, 100, 3, 4, 1⟩)]) ⟨[], []⟩).1).1.trackedNPCs
      1).isSome = true := by
  decide

/-- C1 (amended): a `monitorNPCHealth` tick creates or replaces a Timer
for an id only when that id is absent from the snapshot and its
(phase-1-updated) HealthRecord carries cached health zero — whether that
zero was reached through an observed death transition or was already
zero at first observation; and an id absent from the snapshot whose
last-known health is nonzero keeps its HealthRecord unchanged and gains
no Timer. -/
theorem claim1_zero_health_despawn (cfg : Config) (now : Nat)
    (npcs : List (Nat × NPCSnapshot)) (s : PluginState) (i : Nat)
    (hnd : (keysA s.npcHealthMap).Nodup) :
    (lookupA (monitorNPCHealth cfg now (some npcs) s).1.trackedNPCs i ≠
        lookupA s.trackedNPCs i →
      (currentIds npcs).contains i = false ∧
        ∃ hd, (i, hd) ∈ (phase1 npcs s.npcHealthMap).1 ∧ hd.hp = 0) ∧
    (∀ hd, (∀ p ∈ npcs, p.1 ≠ i) → lookupA s.npcHealthMap i = some hd → hd.hp ≠ 0 →
      lookupA (monitorNPCHealth cfg now (some npcs) s).1.npcHealthMap i = some hd ∧
      lookupA (monitorNPCHealth cfg now (some npcs) s).1.trackedNPCs i =
        lookupA s.trackedNPCs i) := by
  constructor
  · intro h
    obtain ⟨hc, hd, hmem, hz⟩ := phase2_new_timer cfg now (currentIds npcs) i
      (phase1 npcs s.npcHealthMap).1 [] s.trackedNPCs h
    exact ⟨hc, hd, hmem, hz⟩
  · intro hd hni hlk hnz
    have hnd1 := phase1_nodup npcs s.npcHealthMap hnd
    have hl1 : lookupA (phase1 npcs s.npcHealthMap).1 i = some hd := by
      rw [phase1_not_mem i npcs s.npcHealthMap hni]
      exact hlk
    have hcond : ¬ ((currentIds npcs).contains i = false ∧ hd.hp = 0) :=
      fun hc => hnz hc.2
    have hres := phase2_keep cfg now (currentIds npcs) i hd
      (phase1 npcs s.npcHealthMap).1 [] s.trackedNPCs hnd1 hl1 hcond
    exact ⟨hres.1, hres.2⟩

/-- Witness for C1 (amended): a record with nonzero health 5 whose id is
absent from the snapshot survives the tick unchanged and produces no
Timer. -/
theorem claim1_witness :
    lookupA (monitorNPCHealth defaultConfig 1000 (some [])
      ⟨[(1, ⟨5, 100, "Giant", none, none, none⟩)], []⟩).1.npcHealthMap 1 =
      some ⟨5, 100, "Giant", none, none, none⟩ ∧
    lookupA (monitorNPCHealth defaultConfig 1000 (some [])
      ⟨[(1, ⟨5, 100, "Giant", none, none, none⟩)], []⟩).1.trackedNPCs 1 = none :=
  (claim1_zero_health_despawn defaultConfig 1000 []
      ⟨[(1, ⟨5, 100, "Giant", none, none, none⟩)], []⟩ 1 (by decide)).2
    ⟨5, 100, "Giant", none, none, none⟩ (by simp) (by decide) (by decide)

/-- C2 (counterexample): a blacklisted entity ("Rat") first observed with
health already zero has no cached entity reference, so its despawn
creates a Timer even though `shouldTrackNPC` rejects it — the
construction is not equivalent to passing the eligibility filter. -/
theorem claim2_counterexample :
    shouldTrackNPC defaultConfig 0 "Rat" = false ∧
    (lookupA (monitorNPCHealth defaultConfig 2000 (some [])
      (monitorNPCHealth defaultConfig 1000
        (some [(1, ⟨true, "Rat", some ⟨0, 0⟩, 0, 0, 0, 1⟩)]) ⟨[], []⟩).1).1.trackedNPCs
      1).isSome = true := by
  decide

/-- C2 (amended): for a despawn-confirmed id (absent from the snapshot,
phase-1 record with cached health zero), the HealthRecord is removed
unconditionally; if the id is not already tracked, a Timer is
constructed exactly when the record's cached entity reference (present
only when a death transition was observed) passes `shouldTrackNPC`, or
unconditionally when no reference was cached; an already-tracked id
keeps its existing Timer unchanged. -/
theorem claim2_despawn_confirmation (cfg : Config) (now : Nat)
    (npcs : List (Nat × NPCSnapshot)) (s : PluginState) (i : Nat) (hd : HealthRecord)
    (hnd : (keysA s.npcHealthMap).Nodup)
    (hl : lookupA (phase1 npcs s.npcHealthMap).1 i = some hd)
    (habs : (currentIds npcs).contains i = false)
    (hzero : hd.hp = 0) :
    lookupA (monitorNPCHealth cfg now (some npcs) s).1.npcHealthMap i = none ∧
    lookupA (monitorNPCHealth cfg now (some npcs) s).1.trackedNPCs i =
      (match lookupA s.trackedNPCs i with
       | some t0 => some t0
       | none =>
         match hd.npcRef with
         | some cl =>
           if shouldTrackNPC cfg cl hd.name then some (despawnTimer cfg now i hd) else none
         | none => some (despawnTimer cfg now i hd)) := by
  have hnd1 := phase1_nodup npcs s.npcHealthMap hnd
  have hres := phase2_remove cfg now (currentIds npcs) i hd
    (phase1 npcs s.npcHealthMap).1 [] s.trackedNPCs hnd1 hl habs hzero
  exact ⟨hres.1, hres.2⟩

/-- Witness for C2 (amended): a despawn-confirmed record carrying a
cached reference with combat level 40 passes the filter, so its record
is removed and a Timer is created. -/
theorem claim2_witness :
    lookupA (monitorNPCHealth defaultConfig 1000 (some [])
      ⟨[(1, ⟨0, 50, "Giant", some (3, 4), some 1, some 40⟩)], []⟩).1.npcHealthMap 1 =
      none ∧
    lookupA (monitorNPCHealth defaultConfig 1000 (some [])
      ⟨[(1, ⟨0, 50, "Giant", some (3, 4), some 1, some 40⟩)], []⟩).1.trackedNPCs 1 =
      some (despawnTimer defaultConfig 1000 1 ⟨0, 50, "Giant", some (3, 4), some 1, some 40⟩) :=
  claim2_despawn_confirmation defaultConfig 1000 []
    ⟨[(1, ⟨0, 50, "Giant", some (3, 4), some 1, some 40⟩)], []⟩ 1
    ⟨0, 50, "Giant", some (3, 4), some 1, some 40⟩
    (by decide) (by decide) (by decide) (by decide)

/-- C8 (counterexample): an id that dies, despawns (gaining a Timer) and
then reappears in the snapshot holds a live HealthRecord and a live
Timer simultaneously at the end of the third tick. -/
theorem claim8_counterexample :
    (lookupA (monitorNPCHealth defaultConfig 3000
      (some [(1, ⟨true, "Fire Dragon", some ⟨10, 50⟩, 100, 3, 4, 1⟩)])
      (monitorNPCHealth defaultConfig 2000 (some [])
        (monitorNPCHealth defaultConfig 1000
          (some [(1, ⟨true, "Fire Dragon", some ⟨0, 0⟩, 100, 3, 4, 1⟩)])
          ⟨[], []⟩).1).1).1.npcHealthMap 1).isSome = true ∧
    (lookupA (monitorNPCHealth defaultConfig 3000
      (some [(1, ⟨true, "Fire Dragon", some ⟨10, 50⟩, 100, 3, 4, 1⟩)])
      (monitorNPCHealth defaultConfig 2000 (some [])
        (monitorNPCHealth defaultConfig 1000
          (some [(1, ⟨true, "Fire Dragon", some ⟨0, 0⟩, 100, 3, 4, 1⟩)])
          ⟨[], []⟩).1).1).1.trackedNPCs 1).isSome = true := by
  decide

/-- C8 (amended): every tick preserves map-key uniqueness: each id binds
at most one live HealthRecord and at most one live Timer.  (The "never
both" half of the original claim fails: see the counterexample.) -/
theorem claim8_at_most_one_entry_per_map (cfg : Config) (now : Nat)
    (snap : Option (List (Nat × NPCSnapshot))) (s : PluginState)
    (h : WF s) : WF (gameTick cfg now snap s).1 := by
  obtain ⟨h1, h2⟩ := h
  cases snap with
  | none =>
    exact ⟨h1, keysA_updateTimers_nodup cfg now s.trackedNPCs h2⟩
  | some npcs =>
    constructor
    · obtain ⟨l, heq, hsub⟩ := phase2_kept_sublist cfg now (currentIds npcs)
        (phase1 npcs s.npcHealthMap).1 [] s.trackedNPCs
      have hnd1 := phase1_nodup npcs s.npcHealthMap h1
      have : (gameTick cfg now (some npcs) s).1.npcHealthMap = l := by
        simpa using heq
      rw [show keysA (gameTick cfg now (some npcs) s).1.npcHealthMap = keysA l from
        congrArg keysA this]
      exact hnd1.sublist (hsub.map Prod.fst)
    · exact keysA_updateTimers_nodup cfg now _
        (phase2_timers_nodup cfg now (currentIds npcs)
          (phase1 npcs s.npcHealthMap).1 [] s.trackedNPCs h2)

/-- Witness for C8 (amended): well-formedness survives a concrete tick
that both confirms a despawn and updates a timer. -/
theorem claim8_witness :
    WF (gameTick defaultConfig 2000 (some [])
      ⟨[(1, ⟨0, 100, "Giant", none, none, none⟩)],
       [(2, ⟨2, "Knight", (0, 0), 1, 1500, 240, false, false⟩)]⟩).1 :=
  claim8_at_most_one_entry_per_map defaultConfig 2000 (some [])
    ⟨[(1, ⟨0, 100, "Giant", none, none, none⟩)],
     [(2, ⟨2, "Knight", (0, 0), 1, 1500, 240, false, false⟩)]⟩
    ⟨by decide, by decide⟩

/-! ## Nearest-entity search lemmas (C9) -/

theorem lowerStr_ne_empty (s : String) (h : s ≠ "") : lowerStr s ≠ "" := by
  intro hc
  apply h
  cases s with
  | mk data =>
    have : data.map Char.toLower = [] := by
      have := congrArg String.data hc
      simpa [lowerStr] using this
    have hdata : data = [] := List.map_eq_nil_iff.mp this
    simp [hdata]

/-- Specification of one loop iteration when the entity is skipped by a
guard (or absent): the best-so-far is returned unchanged. -/
theorem considerEntity_spec_of_skip (incl : String) (excls : List String) (pp : Int × Int)
    (maxD : Int) (b : Option (WEntity × Int)) (e2 : WEntity)
    (hstep : considerEntity incl excls pp maxD b (some e2) = b)
    (hq : entQualifiesB incl excls pp maxD e2 = false) :
    (considerEntity incl excls pp maxD b (some e2) = none →
      b = none ∧ ∀ e, some e2 = some e → entQualifiesB incl excls pp maxD e = false) ∧
    (∀ e d, considerEntity incl excls pp maxD b (some e2) = some (e, d) →
      ((b = some (e, d)) ∨
        (some e2 = some e ∧ entQualifiesB incl excls pp maxD e = true ∧
          ∃ p, e.pos = some p ∧ distSqXZ pp p = d)) ∧
      (∀ e0 d0, b = some (e0, d0) → d ≤ d0) ∧
      (∀ e3, some e2 = some e3 → entQualifiesB incl excls pp maxD e3 = true →
        ∀ p2, e3.pos = some p2 → d ≤ distSqXZ pp p2)) := by
  rw [hstep]
  refine ⟨fun h => ⟨h, fun e he => by cases he; exact hq⟩, fun e d h => ?_⟩
  refine ⟨Or.inl h, fun e0 d0 h0 => ?_, fun e3 he3 hq3 p2 hp2 => ?_⟩
  · rw [h] at h0
    cases h0
    exact Int.le_refl d
  · cases he3
    rw [hq] at hq3
    cases hq3

theorem considerEntity_spec (incl : String) (excls : List String) (pp : Int × Int)
    (maxD : Int) (hincl : incl ≠ "") (hexcl : ∀ ex ∈ excls, ex ≠ "")
    (b : Option (WEntity × Int)) (oe : Option WEntity) :
    (considerEntity incl excls pp maxD b oe = none →
      b = none ∧ ∀ e, oe = some e → entQualifiesB incl excls pp maxD e = false) ∧
    (∀ e d, considerEntity incl excls pp maxD b oe = some (e, d) →
      ((b = some (e, d)) ∨
        (oe = some e ∧ entQualifiesB incl excls pp maxD e = true ∧
          ∃ p, e.pos = some p ∧ distSqXZ pp p = d)) ∧
      (∀ e0 d0, b = some (e0, d0) → d ≤ d0) ∧
      (∀ e2, oe = some e2 → entQualifiesB incl excls pp maxD e2 = true →
        ∀ p2, e2.pos = some p2 → d ≤ distSqXZ pp p2)) := by
  cases oe with
  | none =>
    refine ⟨fun h => ⟨h, by simp⟩, fun e d h => ?_⟩
    have hb : b = some (e, d) := h
    refine ⟨Or.inl hb, fun e0 d0 h0 => ?_, by simp⟩
    rw [hb] at h0
    cases h0
    exact Int.le_refl d
  | some e2 =>
    by_cases hname : e2.name = ""
    · exact considerEntity_spec_of_skip incl excls pp maxD b e2
        (by simp [considerEntity, hname]) (by simp [entQualifiesB, hname])
    · by_cases hinc2 : strIncludes (lowerStr e2.name) incl
      · by_cases hex2 : excls.any (fun ex => ex ≠ "" && strIncludes (lowerStr e2.name) ex)
        · -- skipped: exclude hit
          refine considerEntity_spec_of_skip incl excls pp maxD b e2 ?_ ?_
          · simp only [considerEntity]
            rw [if_neg hname, if_neg (by simp [hinc2]), if_pos hex2]
          · simp only [entQualifiesB]
            obtain ⟨ex, hmem, hhit⟩ := List.any_eq_true.mp hex2
            have hhit2 : strIncludes (lowerStr e2.name) ex = true := by
              simp only [Bool.and_eq_true] at hhit
              exact hhit.2
            have : excls.all (fun ex => !strIncludes (lowerStr e2.name) ex) = false := by
              rw [List.all_eq_false]
              exact ⟨ex, hmem, by simp [hhit2]⟩
            simp [this]
        · -- no exclude hit
          have hallex : excls.all (fun ex => !strIncludes (lowerStr e2.name) ex) = true := by
            rw [List.all_eq_true]
            intro ex hmem
            by_contra hc
            apply hex2
            rw [List.any_eq_true]
            refine ⟨ex, hmem, ?_⟩
            simp only [Bool.and_eq_true]
            exact ⟨by simpa using hexcl ex hmem, by simpa using hc⟩
          cases hpos : e2.pos with
          | none =>
            refine considerEntity_spec_of_skip incl excls pp maxD b e2 ?_
              (by simp [entQualifiesB, hpos])
            simp only [considerEntity]
            rw [if_neg hname, if_neg (by simp [hinc2]), if_neg (by simpa using hex2)]
            rw [hpos]
          | some p =>
            by_cases hfar : distSqXZ pp p > maxD * maxD
            · refine considerEntity_spec_of_skip incl excls pp maxD b e2 ?_ ?_
              · simp only [considerEntity]
                rw [if_neg hname, if_neg (by simp [hinc2]), if_neg (by simpa using hex2)]
                rw [hpos]
                dsimp only
                rw [if_pos hfar]
              · simp only [entQualifiesB, hpos]
                simp [Int.not_le.mpr hfar]
            · -- qualifies
              have hq : entQualifiesB incl excls pp maxD e2 = true := by
                simp only [entQualifiesB, hpos]
                simp [hname, hinc2, hallex, Int.not_lt.mp (by simpa using hfar)]
              have hstep : considerEntity incl excls pp maxD b (some e2) =
                  (match b with
                   | none => some (e2, distSqXZ pp p)
                   | some (b0, bd) => if distSqXZ pp p < bd then some (e2, distSqXZ pp p)
                       else some (b0, bd)) := by
                simp only [considerEntity]
                rw [if_neg hname, if_neg (by simp [hinc2]), if_neg (by simpa using hex2)]
                rw [hpos]
                dsimp only
                rw [if_neg hfar]
              rw [hstep]
              cases b with
              | none =>
                dsimp only
                refine ⟨fun h => Option.noConfusion h, fun e d h => ?_⟩
                simp only [Option.some.injEq, Prod.mk.injEq] at h
                obtain ⟨he1, he2⟩ := h
                subst he1
                subst he2
                refine ⟨Or.inr ⟨rfl, hq, p, hpos, rfl⟩, fun e0 d0 h0 => Option.noConfusion h0,
                  fun e3 he3 hq3 p2 hp2 => ?_⟩
                cases he3
                rw [hpos] at hp2
                cases hp2
                exact Int.le_refl _
              | some bp =>
                obtain ⟨b0, bd⟩ := bp
                dsimp only
                by_cases hlt : distSqXZ pp p < bd
                · rw [if_pos hlt]
                  refine ⟨fun h => Option.noConfusion h, fun e d h => ?_⟩
                  simp only [Option.some.injEq, Prod.mk.injEq] at h
                  obtain ⟨he1, he2⟩ := h
                  subst he1
                  subst he2
                  refine ⟨Or.inr ⟨rfl, hq, p, hpos, rfl⟩, fun e0 d0 h0 => ?_,
                    fun e3 he3 hq3 p2 hp2 => ?_⟩
                  · simp only [Option.some.injEq, Prod.mk.injEq] at h0
                    rw [h0.2] at hlt
                    exact Int.le_of_lt hlt
                  · cases he3
                    rw [hpos] at hp2
                    cases hp2
                    exact Int.le_refl _
                · rw [if_neg hlt]
                  refine ⟨fun h => Option.noConfusion h, fun e d h => ?_⟩
                  simp only [Option.some.injEq, Prod.mk.injEq] at h
                  obtain ⟨he1, he2⟩ := h
                  subst he1
                  subst he2
                  refine ⟨Or.inl rfl, fun e0 d0 h0 => ?_, fun e3 he3 hq3 p2 hp2 => ?_⟩
                  · simp only [Option.some.injEq, Prod.mk.injEq] at h0
                    rw [h0.2]
                  · cases he3
                    rw [hpos] at hp2
                    cases hp2
                    exact Int.not_lt.mp hlt
      · -- skipped: include miss
        refine considerEntity_spec_of_skip incl excls pp maxD b e2 ?_
          (by simp [entQualifiesB, hinc2])
        simp only [considerEntity]
        rw [if_neg hname, if_pos ⟨hincl, by simpa using hinc2⟩]

theorem foldl_consider_spec (incl : String) (excls : List String) (pp : Int × Int)
    (maxD : Int) (hincl : incl ≠ "") (hexcl : ∀ ex ∈ excls, ex ≠ "") :
    ∀ (ents : List (Option WEntity)) (b : Option (WEntity × Int)),
    ((∀ e d, b = some (e, d) → entQualifiesB incl excls pp maxD e = true ∧
        ∃ p, e.pos = some p ∧ distSqXZ pp p = d) →
      (∀ e d, ents.foldl (considerEntity incl excls pp maxD) b = some (e, d) →
        entQualifiesB incl excls pp maxD e = true ∧
          ∃ p, e.pos = some p ∧ distSqXZ pp p = d)) ∧
    (ents.foldl (considerEntity incl excls pp maxD) b = none →
      b = none ∧ ∀ oe ∈ ents, ∀ e, oe = some e →
        entQualifiesB incl excls pp maxD e = false) ∧
    (∀ e d, ents.foldl (considerEntity incl excls pp maxD) b = some (e, d) →
      (∀ e0 d0, b = some (e0, d0) → d ≤ d0) ∧
      (∀ oe ∈ ents, ∀ e2, oe = some e2 → entQualifiesB incl excls pp maxD e2 = true →
        ∀ p2, e2.pos = some p2 → d ≤ distSqXZ pp p2)) ∧
    (∀ e d, ents.foldl (considerEntity incl excls pp maxD) b = some (e, d) →
      b = some (e, d) ∨ (some e) ∈ ents) := by
  intro ents
  induction ents with
  | nil =>
    intro b
    refine ⟨fun hg e d h => hg e d h, fun h => ⟨h, by simp⟩, fun e d h => ?_,
      fun e d h => Or.inl h⟩
    have hb : b = some (e, d) := h
    refine ⟨fun e0 d0 h0 => ?_, by simp⟩
    rw [hb] at h0
    simp only [Option.some.injEq, Prod.mk.injEq] at h0
    rw [h0.2]
  | cons oe rest ih =>
    intro b
    rw [List.foldl_cons]
    have hstep := considerEntity_spec incl excls pp maxD hincl hexcl b oe
    have ihs := ih (considerEntity incl excls pp maxD b oe)
    refine ⟨?_, ?_, ?_, ?_⟩
    · -- goodness preservation
      intro hg
      refine ihs.1 ?_
      intro e d h
      rcases (hstep.2 e d h).1 with hb | hfresh
      · exact hg e d hb
      · exact ⟨hfresh.2.1, hfresh.2.2⟩
    · -- emptiness
      intro h
      obtain ⟨h1, h2⟩ := ihs.2.1 h
      obtain ⟨h3, h4⟩ := hstep.1 h1
      refine ⟨h3, ?_⟩
      intro oe2 hmem e he
      rcases List.mem_cons.mp hmem with heq | hmem2
      · subst heq
        exact h4 e he
      · exact h2 oe2 hmem2 e he
    · -- minimality
      intro e d h
      have hmin := (ihs.2.2.1 e d h).1
      have hrest := (ihs.2.2.1 e d h).2
      constructor
      · intro e0 d0 h0
        cases hs : considerEntity incl excls pp maxD b oe with
        | none =>
          have := (hstep.1 hs).1
          rw [this] at h0
          cases h0
        | some p1 =>
          obtain ⟨e1, d1⟩ := p1
          have hd1 := hmin e1 d1 hs
          have hd0 := (hstep.2 e1 d1 hs).2.1 e0 d0 h0
          exact Int.le_trans hd1 hd0
      · intro oe2 hmem e2 he2 hq2 p2 hp2
        rcases List.mem_cons.mp hmem with heq | hmem2
        · subst heq
          cases hs : considerEntity incl excls pp maxD b oe2 with
          | none =>
            have := (hstep.1 hs).2 e2 he2
            rw [hq2] at this
            cases this
          | some p1 =>
            obtain ⟨e1, d1⟩ := p1
            have hd1 := hmin e1 d1 hs
            have hd2 := (hstep.2 e1 d1 hs).2.2 e2 he2 hq2 p2 hp2
            exact Int.le_trans hd1 hd2
        · exact hrest oe2 hmem2 e2 he2 hq2 p2 hp2
    · -- provenance
      intro e d h
      rcases ihs.2.2.2 e d h with hs | hmem
      · rcases (hstep.2 e d hs).1 with hb | hfresh
        · exact Or.inl hb
        · exact Or.inr (by rw [← hfresh.1]; exact List.mem_cons_self oe rest)
      · exact Or.inr (List.mem_cons_of_mem oe hmem)

/-- C9: whenever `findNearestWorldEntityByName` returns an entity, that
entity passes every filter of the loop (truthy name, lowercase-name
include match, no exclude match, resolvable position within the distance
threshold) and no other qualifying entity of the registry lies strictly
nearer to the player; it returns null when the registry or the player
position is unavailable, and when no entity of the registry qualifies.
Distances are compared squared (see `distSqXZ`); the include needle
(after lowering and trimming) and the exclude needles are assumed
nonempty, as they are at every call site. -/
theorem claim9_nearest_entity (registry : Option (List (Option WEntity)))
    (nameIncludes : String) (nameExcludes : List String)
    (playerPos : Option (Int × Int)) (maxD : Int)
    (hincl : trimStr (lowerStr nameIncludes) ≠ "")
    (hexcl : ∀ ex ∈ nameExcludes, ex ≠ "") :
    (∀ ents pp e, registry = some ents → playerPos = some pp →
      findNearestWorldEntityByName registry nameIncludes nameExcludes playerPos maxD =
        some e →
      entQualifiesB (trimStr (lowerStr nameIncludes))
          (nameExcludes.map (fun s => lowerStr s)) pp maxD e = true ∧
      (∀ oe ∈ ents, ∀ e2, oe = some e2 →
        entQualifiesB (trimStr (lowerStr nameIncludes))
            (nameExcludes.map (fun s => lowerStr s)) pp maxD e2 = true →
        ∀ p p2, e.pos = some p → e2.pos = some p2 →
          distSqXZ pp p ≤ distSqXZ pp p2)) ∧
    (registry = none →
      findNearestWorldEntityByName registry nameIncludes nameExcludes playerPos maxD =
        none) ∧
    (playerPos = none →
      findNearestWorldEntityByName registry nameIncludes nameExcludes playerPos maxD =
        none) ∧
    (∀ ents pp, registry = some ents → playerPos = some pp →
      (∀ oe ∈ ents, ∀ e2, oe = some e2 →
        entQualifiesB (trimStr (lowerStr nameIncludes))
            (nameExcludes.map (fun s => lowerStr s)) pp maxD e2 = false) →
      findNearestWorldEntityByName registry nameIncludes nameExcludes playerPos maxD =
        none) := by
  have hexcl2 : ∀ ex ∈ nameExcludes.map (fun s => lowerStr s), ex ≠ "" := by
    intro ex hmem
    obtain ⟨s, hs, rfl⟩ := List.mem_map.mp hmem
    exact lowerStr_ne_empty s (hexcl s hs)
  refine ⟨?_, ?_, ?_, ?_⟩
  · intro ents pp e hr hp hfind
    subst hr
    subst hp
    have hEq : findNearestWorldEntityByName (some ents) nameIncludes nameExcludes
        (some pp) maxD =
        (ents.foldl (considerEntity (trimStr (lowerStr nameIncludes))
          (nameExcludes.map (fun s => lowerStr s)) pp maxD) none).map Prod.fst := rfl
    rw [hEq] at hfind
    have hspec := foldl_consider_spec (trimStr (lowerStr nameIncludes))
      (nameExcludes.map (fun s => lowerStr s)) pp maxD hincl hexcl2 ents none
    cases hfold : ents.foldl (considerEntity (trimStr (lowerStr nameIncludes))
        (nameExcludes.map (fun s => lowerStr s)) pp maxD) none with
    | none =>
      rw [hfold] at hfind
      cases hfind
    | some p1 =>
      obtain ⟨e1, d1⟩ := p1
      rw [hfold] at hfind
      simp only [Option.map_some', Option.some.injEq] at hfind
      subst hfind
      have hgood := hspec.1 (fun e d h => Option.noConfusion h) e1 d1 hfold
      refine ⟨hgood.1, ?_⟩
      intro oe hmem e2 he2 hq2 p p2 hp1 hp2
      obtain ⟨hq1, pg, hpg, hdg⟩ := hgood
      rw [hp1] at hpg
      have hpeq : p = pg := Option.some.inj hpg
      rw [hpeq, hdg]
      exact (hspec.2.2.1 e1 d1 hfold).2 oe hmem e2 he2 hq2 p2 hp2
  · intro hr
    subst hr
    rfl
  · intro hp
    cases registry with
    | none => rfl
    | some ents =>
      subst hp
      rfl
  · intro ents pp hr hp hnone
    subst hr
    subst hp
    have hEq : findNearestWorldEntityByName (some ents) nameIncludes nameExcludes
        (some pp) maxD =
        (ents.foldl (considerEntity (trimStr (lowerStr nameIncludes))
          (nameExcludes.map (fun s => lowerStr s)) pp maxD) none).map Prod.fst := rfl
    rw [hEq]
    have hspec := foldl_consider_spec (trimStr (lowerStr nameIncludes))
      (nameExcludes.map (fun s => lowerStr s)) pp maxD hincl hexcl2 ents none
    cases hfold : ents.foldl (considerEntity (trimStr (lowerStr nameIncludes))
        (nameExcludes.map (fun s => lowerStr s)) pp maxD) none with
    | none => rfl
    | some p1 =>
      obtain ⟨e1, d1⟩ := p1
      have hgood := hspec.1 (fun e d h => Option.noConfusion h) e1 d1 hfold
      rcases hspec.2.2.2 e1 d1 hfold with hb | hmem
      · cases hb
      · have := hnone (some e1) hmem e1 rfl
        rw [hgood.1] at this
        cases this

/-- Witness for C9: among an excluded "Oak Tree", a near "Tree" and a far
"Tree", the search returns the near "Tree", which qualifies. -/
theorem claim9_witness :
    findNearestWorldEntityByName
      (some [some ⟨"Oak Tree", some (5, 5)⟩, some ⟨"Tree", some (3, 4)⟩,
             some ⟨"Tree", some (30, 0)⟩])
      "tree" ["oak"] (some (0, 0)) 30 = some ⟨"Tree", some (3, 4)⟩ ∧
    entQualifiesB (trimStr (lowerStr "tree")) (["oak"].map (fun s => lowerStr s)) (0, 0) 30
      ⟨"Tree", some (3, 4)⟩ = true :=
  ⟨by decide,
   ((claim9_nearest_entity
      (some [some ⟨"Oak Tree", some (5, 5)⟩, some ⟨"Tree", some (3, 4)⟩,
             some ⟨"Tree", some (30, 0)⟩])
      "tree" ["oak"] (some (0, 0)) 30 (by decide) (by decide)).1
      [some ⟨"Oak Tree", some (5, 5)⟩, some ⟨"Tree", some (3, 4)⟩,
       some ⟨"Tree", some (30, 0)⟩]
      (0, 0) ⟨"Tree", some (3, 4)⟩ rfl rfl (by decide)).1⟩
